import Mathlib

/-!
Verification of the batch-prediction script `src/AutoML_MultipleCSVs_Pred.py`.

The script lists CSV objects in an S3 bucket, reads each one into a pandas
DataFrame, sends the header-less CSV serialization of the frame to a SageMaker
endpoint, merges the JSON predictions back into the frame cell by cell
(`process_predictions`), and writes the enriched frame back to S3 under the
`outputs/` prefix.

The development below is a shallow embedding of that pipeline:
  * `JVal` models the JSON values produced by `json.loads` / consumed by
    `json.dumps` (section 1), with executable printer `dumps` and parser
    `parseJson`;
  * `DataFrame` models the pandas frame as ordered column names plus rows of
    cells, with `setCell` modelling `df.at[i, key] = value` (section 2);
  * `toCsv` / `readCsv` model `df.to_csv` / `pd.read_csv` with pandas'
    minimal quoting and per-column dtype inference (section 3);
  * `Env`, `process_csv_file`, `process_all_csv_files` model the S3/SageMaker
    orchestration with external calls given as `Except`-valued functions and
    logging/IO captured in traces (section 4).

Numbers are modelled as integers throughout: the script's own examples use
integer-valued cells, and floating point is outside the embedding.
-/

namespace AwsAutoML

/-! ## Section 1: JSON values, json.dumps and json.loads

`JVal` is the value domain of Python's `json` module restricted to integer
numbers: `None`, `bool`, `int`, `str`, `list`, `dict` (an object keeps its
key/value pairs in insertion order, as `json.loads` builds Python dicts). -/
inductive JVal where
  | null
  | bool (b : Bool)
  | num (n : Int)
  | str (s : String)
  | arr (xs : List JVal)
  | obj (kvs : List (String × JVal))

/- Structural size of a JSON value, used to bound the parser fuel. -/
mutual

/-- Structural size of a JSON value, used to bound the parser fuel. -/
def jsize : JVal → Nat
  | .null | .bool _ | .num _ | .str _ => 1
  | .arr xs => 1 + jsizeList xs
  | .obj kvs => 1 + jsizeObj kvs

def jsizeList : List JVal → Nat
  | [] => 1
  | v :: tl => 1 + jsize v + jsizeList tl

def jsizeObj : List (String × JVal) → Nat
  | [] => 1
  | (_, v) :: tl => 1 + jsize v + jsizeObj tl

end

/-- Decimal digit character: `digitChar 3 = '3'`. -/
def digitChar (d : Nat) : Char := Char.ofNat (48 + d)

/-- Decimal digits of `n`, most significant first, computed with explicit
fuel so that the definition is structural (the fuel `n + 1` always
suffices). -/
def natDigitsAux : Nat → Nat → List Nat
  | 0, _ => []
  | fuel + 1, n => if n < 10 then [n] else natDigitsAux fuel (n / 10) ++ [n % 10]

def natDigits (n : Nat) : List Nat := natDigitsAux (n + 1) n

/-- Decimal rendering of a natural number, as `repr`/`str` print it. -/
def natChars (n : Nat) : List Char := (natDigits n).map digitChar

/-- Decimal rendering of an integer, as Python prints `int`. -/
def intChars (n : Int) : List Char :=
  if n < 0 then '-' :: natChars n.natAbs else natChars n.toNat

def isDigitChar (c : Char) : Bool := 48 ≤ c.toNat && c.toNat ≤ 57

/-- Accumulating decimal parser: consumes leading digit characters. -/
def parseDigitsAux : List Char → Nat → Nat × List Char
  | [], acc => (acc, [])
  | c :: r, acc =>
    if isDigitChar c then parseDigitsAux r (acc * 10 + (c.toNat - 48)) else (acc, c :: r)

/-- Decimal parser requiring at least one digit. -/
def parseDigits1 : List Char → Option (Nat × List Char)
  | [] => none
  | c :: r => if isDigitChar c then some (parseDigitsAux r (c.toNat - 48)) else none

/-- Lower-case hex digit, as Python's json module emits in \u00XX escapes. -/
def hexDigit (d : Nat) : Char := if d < 10 then Char.ofNat (48 + d) else Char.ofNat (87 + d)

def hexVal (c : Char) : Option Nat :=
  if 48 ≤ c.toNat ∧ c.toNat ≤ 57 then some (c.toNat - 48)
  else if 97 ≤ c.toNat ∧ c.toNat ≤ 102 then some (c.toNat - 87)
  else if 65 ≤ c.toNat ∧ c.toNat ≤ 70 then some (c.toNat - 55)
  else none

/-- JSON string escaping of one character, following `json.dumps`: quote and
backslash are escaped, newline, tab and carriage return take their short
forms, remaining control characters are emitted as \u00XX.  (Other
characters are emitted literally, as with `ensure_ascii=False`; the exact
ASCII-escaping of the Python default only changes the spelling, not
decodability.) -/
def escapeChar (c : Char) : List Char :=
  if c = '"' then ['\\', '"']
  else if c = '\\' then ['\\', '\\']
  else if c = '\n' then ['\\', 'n']
  else if c = '\t' then ['\\', 't']
  else if c = '\r' then ['\\', 'r']
  else if c.toNat < 32 then
    ['\\', 'u', '0', '0', hexDigit (c.toNat / 16), hexDigit (c.toNat % 16)]
  else [c]

def escString : List Char → List Char
  | [] => []
  | c :: tl => escapeChar c ++ escString tl

/-- Characters of the JSON text of a string literal. -/
def dumpStrChars (s : String) : List Char := '"' :: escString s.data ++ ['"']

mutual

/-- Characters of `json.dumps(v)` with the default separators
`(", ", ": ")`. -/
def dumpChars : JVal → List Char
  | .null => 'n' :: ['u', 'l', 'l']
  | .bool b => if b then 't' :: ['r', 'u', 'e'] else 'f' :: ['a', 'l', 's', 'e']
  | .num n => intChars n
  | .str s => dumpStrChars s
  | .arr [] => ['[', ']']
  | .arr (v :: tl) => '[' :: (dumpChars v ++ dumpListRest tl) ++ [']']
  | .obj [] => ['{', '}']
  | .obj ((k, v) :: tl) =>
    '{' :: (dumpStrChars k ++ ':' :: ' ' :: dumpChars v ++ dumpObjRest tl) ++ ['}']

def dumpListRest : List JVal → List Char
  | [] => []
  | v :: tl => ',' :: ' ' :: dumpChars v ++ dumpListRest tl

def dumpObjRest : List (String × JVal) → List Char
  | [] => []
  | (k, v) :: tl =>
    ',' :: ' ' :: dumpStrChars k ++ ':' :: ' ' :: dumpChars v ++ dumpObjRest tl

end

/-- Model of `json.dumps`. -/
def dumps (v : JVal) : String := String.mk (dumpChars v)

def isWsChar (c : Char) : Bool := c = ' ' || c = '\n' || c = '\t' || c = '\r'

def skipWs : List Char → List Char
  | [] => []
  | c :: r => if isWsChar c then skipWs r else c :: r

/-- Matches the literal characters `ds` at the front of the input. -/
def dropLit : List Char → List Char → Option (List Char)
  | [], cs => some cs
  | _ :: _, [] => none
  | d :: ds, c :: cs => if c = d then dropLit ds cs else none

/-- JSON string-literal body parser (after the opening quote), accumulating
the decoded characters.  Handles the escapes `json.dumps` emits plus the
remaining standard JSON ones; \uXXXX is decoded as a single code point
(surrogate pairing for astral-plane characters is not modelled). -/
def parseJStr : List Char → List Char → Option (String × List Char)
  | [], _ => none
  | c :: r, acc =>
    if c = '"' then some (String.mk acc, r)
    else if c = '\\' then
      match r with
      | [] => none
      | e :: r2 =>
        if e = '"' then parseJStr r2 (acc ++ ['"'])
        else if e = '\\' then parseJStr r2 (acc ++ ['\\'])
        else if e = '/' then parseJStr r2 (acc ++ ['/'])
        else if e = 'n' then parseJStr r2 (acc ++ ['\n'])
        else if e = 't' then parseJStr r2 (acc ++ ['\t'])
        else if e = 'r' then parseJStr r2 (acc ++ ['\r'])
        else if e = 'b' then parseJStr r2 (acc ++ [Char.ofNat 8])
        else if e = 'f' then parseJStr r2 (acc ++ [Char.ofNat 12])
        else if e = 'u' then
          match r2 with
          | h1 :: h2 :: h3 :: h4 :: r3 =>
            match hexVal h1, hexVal h2, hexVal h3, hexVal h4 with
            | some a, some b, some c2, some d =>
              parseJStr r3 (acc ++ [Char.ofNat (((a * 16 + b) * 16 + c2) * 16 + d)])
            | _, _, _, _ => none
          | _ => none
        else none
    else parseJStr r (acc ++ [c])

mutual

/-- Recursive-descent JSON value parser modelling `json.loads` (restricted to
integer numbers).  The fuel argument only has to dominate the structural
size of the value being read; `parseJson` supplies a bound derived from the
input length. -/
def parseVal : Nat → List Char → Option (JVal × List Char)
  | 0, _ => none
  | fuel + 1, cs =>
    match skipWs cs with
    | [] => none
    | c :: r =>
      if c = 'n' then (dropLit ['u', 'l', 'l'] r).map (fun r2 => (.null, r2))
      else if c = 't' then (dropLit ['r', 'u', 'e'] r).map (fun r2 => (.bool true, r2))
      else if c = 'f' then (dropLit ['a', 'l', 's', 'e'] r).map (fun r2 => (.bool false, r2))
      else if c = '"' then (parseJStr r []).map (fun p => (.str p.1, p.2))
      else if c = '-' then
        match parseDigits1 r with
        | some p => some (.num (-(p.1 : Int)), p.2)
        | none => none
      else if isDigitChar c then
        match parseDigits1 (c :: r) with
        | some p => some (.num (p.1 : Int), p.2)
        | none => none
      else if c = '[' then parseElems fuel r
      else if c = '{' then parseMembers fuel r
      else none

def parseElems : Nat → List Char → Option (JVal × List Char)
  | 0, _ => none
  | fuel + 1, cs =>
    match skipWs cs with
    | [] => none
    | c :: r =>
      if c = ']' then some (.arr [], r)
      else do
        let p ← parseVal fuel (c :: r)
        let q ← parseElemsRest fuel p.2
        some (.arr (p.1 :: q.1), q.2)

def parseElemsRest : Nat → List Char → Option (List JVal × List Char)
  | 0, _ => none
  | fuel + 1, cs =>
    match skipWs cs with
    | [] => none
    | c :: r =>
      if c = ']' then some ([], r)
      else if c = ',' then do
        let p ← parseVal fuel r
        let q ← parseElemsRest fuel p.2
        some (p.1 :: q.1, q.2)
      else none

def parseMember : Nat → List Char → Option ((String × JVal) × List Char)
  | 0, _ => none
  | fuel + 1, cs =>
    match skipWs cs with
    | [] => none
    | c :: r =>
      if c = '"' then do
        let k ← parseJStr r []
        match skipWs k.2 with
        | c2 :: r2 =>
          if c2 = ':' then do
            let v ← parseVal fuel r2
            some ((k.1, v.1), v.2)
          else none
        | [] => none
      else none

def parseMembers : Nat → List Char → Option (JVal × List Char)
  | 0, _ => none
  | fuel + 1, cs =>
    match skipWs cs with
    | [] => none
    | c :: r =>
      if c = '}' then some (.obj [], r)
      else do
        let m ← parseMember fuel (c :: r)
        let q ← parseMembersRest fuel m.2
        some (.obj (m.1 :: q.1), q.2)

def parseMembersRest : Nat → List Char → Option (List (String × JVal) × List Char)
  | 0, _ => none
  | fuel + 1, cs =>
    match skipWs cs with
    | [] => none
    | c :: r =>
      if c = '}' then some ([], r)
      else if c = ',' then do
        let m ← parseMember fuel r
        let q ← parseMembersRest fuel m.2
        some (m.1 :: q.1, q.2)
      else none

end

/-- Model of `json.loads`: parse one value, allow trailing whitespace,
reject anything else left over. -/
def parseJson (s : String) : Option JVal :=
  match parseVal (2 * s.length + 2) s.data with
  | some p => if skipWs p.2 = [] then some p.1 else none
  | none => none

/-- Head of the remaining input is not a decimal digit (so a preceding
number token cannot greedily absorb it). -/
def headNotDigit : List Char → Prop
  | [] => True
  | c :: _ => isDigitChar c = false

/-! ## Section 2: DataFrame model and `process_predictions`

A pandas `DataFrame` is modelled by its ordered column names and its rows
of cells; a cell is a scalar or a missing value (NaN/None).  `df.at[i, key]`
assignment (`setCell`) overwrites the cell when the column exists and
otherwise appends a fresh column whose other cells are missing, as pandas
does. -/
inductive Scalar where
  | int (n : Int)
  | bool (b : Bool)
  | str (s : String)
  deriving DecidableEq

/-- A pandas cell: `none` models a missing value (NaN/None). -/
abbrev Cell := Option Scalar

structure DataFrame where
  cols : List String
  rows : List (List Cell)
  deriving DecidableEq

/-- Well-formedness: each row has exactly one cell per column. -/
def WF (df : DataFrame) : Prop := ∀ r ∈ df.rows, r.length = df.cols.length

instance decWF (df : DataFrame) : Decidable (WF df) :=
  inferInstanceAs (Decidable (∀ r ∈ df.rows, r.length = df.cols.length))

/-- Index of a column label, first match (pandas labels are unique after
`read_csv`). -/
def colIdx : List String → String → Option Nat
  | [], _ => none
  | c :: tl, key => if c = key then some 0 else (colIdx tl key).map (· + 1)

/-- Models the assignment `df.at[i, key] = c` (line 43 of the source). -/
def setCell (df : DataFrame) (i : Nat) (key : String) (c : Cell) : DataFrame :=
  match colIdx df.cols key with
  | some j => { df with rows := df.rows.set i ((df.rows.getD i []).set j c) }
  | none =>
    { cols := df.cols ++ [key],
      rows := (df.rows.map (fun r => r ++ [none])).set i (df.rows.getD i [] ++ [c]) }

/-- Cell lookup: `some c` when row `i` and column `key` both exist. -/
def getCell (df : DataFrame) (i : Nat) (key : String) : Option Cell :=
  match colIdx df.cols key with
  | some j => df.rows[i]?.bind (fun r => r[j]?)
  | none => none

/-- Value stored by line 43: `json.dumps(value) if isinstance(value, (list,
dict)) else value`.  Scalars are stored as they are (`None` becomes a
missing value); composite values are stored as their JSON text. -/
def predValueCell : JVal → Cell
  | .null => none
  | .bool b => some (.bool b)
  | .num n => some (.int n)
  | .str s => some (.str s)
  | .arr xs => some (.str (dumps (.arr xs)))
  | .obj kvs => some (.str (dumps (.obj kvs)))

/-- Composite (list/dict) test of line 43's `isinstance(value, (list, dict))`. -/
def isComposite : JVal → Bool
  | .arr _ => true
  | .obj _ => true
  | _ => false

/-- Log stream of the script, one constructor per `logger` call site,
carrying the data the message interpolates. -/
inductive LogEntry where
  | infoProcessing (file_key : String)
  | infoShape (nrows ncols : Nat)
  | infoHead
  | infoKeys (keys : List String)
  | infoSaved (file_key : String)
  | shapeError (expected : Nat) (got : String)
  | predWarning (i : Nat) (pred : JVal)
  | invokeError (e : String)
  | noPredictionsError
  | fileError (file_key : String) (e : String)
  | listError (e : String)
  | noCsvWarning

/-- Python type name of a JSON value, as `type(x)` shows it in the line 37
error message. -/
def typeName : JVal → String
  | .null => "NoneType"
  | .bool _ => "bool"
  | .num _ => "int"
  | .str _ => "str"
  | .arr _ => "list"
  | .obj _ => "dict"

/-- The inner loop of lines 42-43: one prediction record (a dict) applied
to row `i`, field by field in insertion order. -/
def applyRecord (df : DataFrame) (i : Nat) : List (String × JVal) → DataFrame
  | [] => df
  | (k, v) :: tl => applyRecord (setCell df i k (predValueCell v)) i tl

/-- The `isinstance(pred, dict)` test of line 41, returning the dict's
items when it passes. -/
def asObj : JVal → Option (List (String × JVal))
  | .obj kvs => some kvs
  | _ => none

/-- The loop of lines 40-45: the record at offset `j` of the list is applied
to row `i + j`; a non-dict record is skipped with a warning. -/
def applyRecords (df : DataFrame) (i : Nat) : List JVal → DataFrame × List LogEntry
  | [] => (df, [])
  | p :: tl =>
    match asObj p with
    | some kvs => applyRecords (applyRecord df i kvs) (i + 1) tl
    | none =>
      let r := applyRecords df (i + 1) tl
      (r.1, .predWarning i p :: r.2)

/-- Model of `process_predictions` (lines 35-47): if `predictions` is not a
Python list of exactly one record per dataset row, log the expected length
and the actual type and return the dataset unchanged; otherwise apply the
records row by row. -/
def process_predictions (predictions : JVal) (df : DataFrame) :
    DataFrame × List LogEntry :=
  match predictions with
  | .arr ps =>
    if ps.length = df.rows.length then applyRecords df 0 ps
    else (df, [.shapeError df.rows.length (typeName (.arr ps))])
  | p => (df, [.shapeError df.rows.length (typeName p)])

/-! ## Section 3: CSV serialization (`df.to_csv`) and parsing (`pd.read_csv`)

`to_csv` is modelled with pandas' defaults: comma delimiter, minimal
quoting (a field is quoted only when it contains a delimiter, quote, or
line break; quotes are doubled), one line per row terminated by a newline,
`index=False` as in the source.  `read_csv` is modelled as the CSV grammar
plus pandas' per-column dtype inference restricted to this development's
cell domain: a column whose every field is an integer literal becomes an
integer column, else a column of `True`/`False` fields becomes boolean,
else fields stay text with the common NA lexemes mapped to missing cells.
(Floating point columns and the `Unnamed:`-header and duplicate-header
renamings of pandas are outside the model.) -/
def renderCell : Cell → String
  | none => ""
  | some (.int n) => String.mk (intChars n)
  | some (.bool true) => "True"
  | some (.bool false) => "False"
  | some (.str s) => s

def needsQuote (s : String) : Bool :=
  s.data.any (fun c => c = ',' || c = '"' || c = '\n' || c = '\r')

def escQuote : List Char → List Char
  | [] => []
  | c :: tl => if c = '"' then '"' :: '"' :: escQuote tl else c :: escQuote tl

/-- Minimal quoting of one field, as csv.QUOTE_MINIMAL writes it. -/
def quoteField (s : String) : List Char :=
  if needsQuote s then '"' :: escQuote s.data ++ ['"'] else s.data

def renderFields : List String → List Char
  | [] => []
  | [f] => quoteField f
  | f :: tl => quoteField f ++ ',' :: renderFields tl

def renderRows : List (List String) → List Char
  | [] => []
  | r :: tl => renderFields r ++ '\n' :: renderRows tl

/-- Model of `df.to_csv(index=False, header=header)`. -/
def toCsv (header : Bool) (df : DataFrame) : String :=
  String.mk ((if header then renderFields df.cols ++ ['\n'] else []) ++
    renderRows (df.rows.map (fun r => r.map renderCell)))

/-- Unquoted-field scan: take characters up to a delimiter or line break. -/
def takeUntil : List Char → List Char × List Char
  | [] => ([], [])
  | c :: r =>
    if c = ',' ∨ c = '\n' then ([], c :: r)
    else
      let p := takeUntil r
      (c :: p.1, p.2)

mutual

/-- Quoted-field scan after the opening quote; doubled quotes decode to one. -/
def parseQuotedTail : List Char → List Char → Option (String × List Char)
  | [], _ => none
  | c :: r, acc =>
    if c = '"' then quoteEnd r acc
    else parseQuotedTail r (acc ++ [c])

/-- Continuation after a quote inside a quoted field: a second quote is a
literal quote, anything else ends the field. -/
def quoteEnd : List Char → List Char → Option (String × List Char)
  | [], acc => some (String.mk acc, [])
  | c2 :: r2, acc =>
    if c2 = '"' then parseQuotedTail r2 (acc ++ ['"'])
    else some (String.mk acc, c2 :: r2)

end

/-- One CSV field; the following delimiter or line break is left in place. -/
def parseRawField : List Char → Option (String × List Char)
  | [] => some ("", [])
  | c :: r =>
    if c = '"' then parseQuotedTail r []
    else
      let p := takeUntil (c :: r)
      some (String.mk p.1, p.2)

/-- One CSV record up to and including its line break (or end of input). -/
def parseRecordAux : Nat → List Char → Option (List String × List Char)
  | 0, _ => none
  | fuel + 1, cs =>
    match parseRawField cs with
    | none => none
    | some (f, r) =>
      match r with
      | [] => some ([f], [])
      | c :: r2 =>
        if c = ',' then
          match parseRecordAux fuel r2 with
          | none => none
          | some (fs, r3) => some (f :: fs, r3)
        else if c = '\n' then some ([f], r2)
        else none

def parseRecords : Nat → List Char → Option (List (List String))
  | 0, _ => none
  | fuel + 1, cs =>
    match cs with
    | [] => some []
    | _ =>
      match parseRecordAux fuel cs with
      | none => none
      | some (r, rest) =>
        match parseRecords fuel rest with
        | none => none
        | some rs => some (r :: rs)

/-- All-digit run with its decimal value. -/
def digitsVal? (ds : List Char) : Option Nat :=
  if ds ≠ [] ∧ ds.all isDigitChar then
    some (ds.foldl (fun a c => a * 10 + (c.toNat - 48)) 0)
  else none

/-- Sign-and-digits body of an integer literal (`+` and `-` both accepted,
as `str_to_int64` does). -/
def intLexemeChars? : List Char → Option Int
  | [] => none
  | c :: ds =>
    if c = '-' then (digitsVal? ds).map (fun m : Nat => -(m : Int))
    else if c = '+' then (digitsVal? ds).map (fun m : Nat => (m : Int))
    else (digitsVal? (c :: ds)).map (fun m : Nat => (m : Int))

/-- The whitespace the C parser's numeric converters skip around a field. -/
def isCSpace (c : Char) : Bool :=
  c = ' ' || c = '\t' || c = '\n' || c = '\x0b' || c = '\x0c' || c = '\r'

/-- A field with its surrounding C whitespace removed. -/
def trimWs (cs : List Char) : List Char :=
  ((cs.dropWhile isCSpace).reverse.dropWhile isCSpace).reverse

def int64Min : Int := -9223372036854775808

def int64Max : Int := 9223372036854775807

/-- Integer field as `read_csv`'s `str_to_int64` accepts it: surrounding
whitespace skipped, an optional sign, digits, and a value within the int64
range — an overflowing literal fails over to the float converter. -/
def intLexeme? (s : String) : Option Int :=
  match intLexemeChars? (trimWs s.data) with
  | some n => if int64Min ≤ n ∧ n ≤ int64Max then some n else none
  | none => none

/-- The `_true_values` lexemes of the C parser's boolean converter. -/
def isTrueLexeme (s : String) : Bool := s == "True" || s == "TRUE" || s == "true"

/-- The `_false_values` lexemes of the C parser's boolean converter. -/
def isFalseLexeme (s : String) : Bool :=
  s == "False" || s == "FALSE" || s == "false"

/-- A field the boolean converter accepts. -/
def isBoolLexeme (s : String) : Bool := isTrueLexeme s || isFalseLexeme s

/-- All nineteen members of pandas' default `na_values`. -/
def isNaLexeme (s : String) : Bool :=
  s == "" || s == "#N/A" || s == "#N/A N/A" || s == "#NA" || s == "-1.#IND" ||
    s == "-1.#QNAN" || s == "-NaN" || s == "-nan" || s == "1.#IND" ||
    s == "1.#QNAN" || s == "<NA>" || s == "N/A" || s == "NA" || s == "NULL" ||
    s == "NaN" || s == "None" || s == "n/a" || s == "nan" || s == "null"

/-- Exponent tail after `e`/`E`: an optional sign then at least one digit. -/
def expTailOk : List Char → Bool
  | [] => false
  | c :: r =>
    if c = '+' || c = '-' then !r.isEmpty && r.all isDigitChar
    else (c :: r).all isDigitChar

/-- Scan of a decimal mantissa: digits with at most one point — at least
one digit overall — and an optional exponent; `seenDigit` and `seenDot`
record what the scan has already passed. -/
def mantScan : List Char → Bool → Bool → Bool
  | [], seenDigit, _ => seenDigit
  | c :: r, seenDigit, seenDot =>
    if isDigitChar c then mantScan r true seenDot
    else if c = '.' then !seenDot && mantScan r seenDigit true
    else if c = 'e' || c = 'E' then seenDigit && expTailOk r
    else false

/-- ASCII lowercasing, for the converter's case-insensitive lexemes. -/
def lowerChar (c : Char) : Char :=
  if 65 ≤ c.toNat ∧ c.toNat ≤ 90 then Char.ofNat (c.toNat + 32) else c

/-- The special bodies `xstrtod` accepts case-insensitively after the sign. -/
def isSpecialFloatBody (cs : List Char) : Bool :=
  cs.map lowerChar == "inf".data || cs.map lowerChar == "infinity".data ||
    cs.map lowerChar == "nan".data

/-- Float field as `read_csv`'s `xstrtod` accepts it: surrounding
whitespace skipped, an optional sign, then a decimal mantissa with an
optional exponent, or a special lexeme.  Every integer literal — including
one that overflows int64 — is a float field too. -/
def floatLexemeChars (cs : List Char) : Bool :=
  match trimWs cs with
  | [] => false
  | c :: r =>
    let body := if c = '-' || c = '+' then r else c :: r
    mantScan body false false || isSpecialFloatBody body

def floatLexeme (s : String) : Bool := floatLexemeChars s.data

inductive ColKind where
  | kint
  | kfloat
  | kbool
  | kstr
  deriving DecidableEq

/-- Per-column dtype of `read_csv`: every field an int64 literal gives an
integer column; otherwise, with the NA lexemes set aside as the converters
see them, an all-float column — which a single NA in an otherwise integer
column also produces, since int64 cannot hold NaN — is float64; else an
all-boolean column is boolean (an NA-mixed one becomes an object column of
Python booleans); else the fields stay text.  Columns marked `.kfloat`
hold values this development's cell domain cannot represent, and
`readCsv` refuses the input rather than misstate their contents. -/
def colKind (fields : List String) : ColKind :=
  if fields.all (fun f => (intLexeme? f).isSome) then .kint
  else if (fields.filter (fun f => !isNaLexeme f)).all floatLexeme then .kfloat
  else if fields.all isBoolLexeme then .kbool
  else if (fields.filter (fun f => !isNaLexeme f)).all isBoolLexeme then .kfloat
  else .kstr

/-- Cast one field at the column's dtype.  The `.kfloat` arm is
unreachable: `readCsv` refuses float-typed columns before casting. -/
def castField : ColKind → String → Cell
  | .kint, f =>
    match intLexeme? f with
    | some n => some (.int n)
    | none => none
  | .kfloat, _ => none
  | .kbool, f => some (.bool (isTrueLexeme f))
  | .kstr, f => if isNaLexeme f then none else some (.str f)

def colFields (recs : List (List String)) (j : Nat) : List String :=
  recs.map (fun r => r.getD j "")

/-- Model of `pd.read_csv` on text input: parse the records, take the first
as the header, require a rectangular body, and infer each column's dtype. -/
def readCsv (s : String) : Option DataFrame :=
  match parseRecords (2 * s.length + 2) s.data with
  | none => none
  | some [] => none
  | some (header :: recs) =>
    if recs.all (fun r => r.length = header.length) then
      let kinds := (List.range header.length).map (fun j => colKind (colFields recs j))
      if ColKind.kfloat ∈ kinds then none
      else some ⟨header, recs.map (fun r => (kinds.zip r).map (fun p => castField p.1 p.2))⟩
    else none

/-! ## Section 4: the S3 / SageMaker pipeline (lines 13-16, 22-33, 49-102)

The AWS side of the run is a record of oracles: the object listing that
`list_objects_v2` returns for the input bucket, each object's text, the
endpoint's response body for each payload, and the outcome of each
`put_object`.  `Except.error e` models a raised exception whose message is
`e`; boto3 client errors and pandas/json parse errors alike surface this
way to the `except` handlers of the script. -/
structure Env where
  listObjects : Except String (List String)
  getObject : String → Except String String
  invokeEndpoint : String → Except String String
  putObject : String → String → Except String Unit

/-- Line 13: `s3_bucket = '100csvs'`. -/
def s3_bucket : String := "100csvs"

/-- Line 14: `input_prefix = '100csv/'` (the input key namespace). -/
def input_dir : String := "100csv/"

/-- Line 15: `output_prefix = 'outputs/'` (the output key namespace). -/
def output_dir : String := "outputs/"

/-- Line 16: `sagemaker_endpoint = 'canvas-prediction'`. -/
def sagemaker_endpoint : String := "canvas-prediction"

/-- Lines 22-33, `invoke_sagemaker_endpoint`: call the endpoint with the
payload; a client error is logged and re-raised (line 31-33), and a body
that is not valid JSON makes `json.loads` raise an error that propagates
uncaught out of this function (line 30). -/
def invoke_sagemaker_endpoint (env : Env) (input_data : String) :
    Except String JVal × List LogEntry :=
  match env.invokeEndpoint input_data with
  | .error e => (.error e, [.invokeError e])
  | .ok body =>
    match parseJson body with
    | some v => (.ok v, [])
    | none => (.error "JSONDecodeError", [])

/-- Dict lookup after `json.loads`: a repeated key keeps its last binding,
which is what `'k' in d` and `d['k']` observe. -/
def lookupLast (kvs : List (String × JVal)) (k : String) : Option JVal :=
  match kvs with
  | [] => none
  | (k2, v) :: tl =>
    match lookupLast tl k with
    | some v2 => some v2
    | none => if k2 = k then some v else none

/-- `str.endswith(pat)`: the characters of `k` end with those of `pat`. -/
def pyEndsWith (k pat : String) : Bool := pat.data.isSuffixOf k.data

/-- `key.split('/')`: the key's characters cut at every slash, keeping
empty segments, as Python's `str.split` with an explicit separator does. -/
def splitSlashAux : List Char → List Char → List String
  | [], acc => [String.mk acc.reverse]
  | c :: r, acc =>
    if c = '/' then String.mk acc.reverse :: splitSlashAux r []
    else splitSlashAux r (c :: acc)

/-- Line 77: `file_key.split('/')[-1]`, the base filename of an S3 key. -/
def lastSegment (key : String) : String := (splitSlashAux key.data []).getLastD ""

/-- Line 77: `output_key = output_prefix + file_key.split('/')[-1]`. -/
def outputKeyOf (file_key : String) : String := output_dir ++ lastSegment file_key

/-- What one `process_csv_file` call did, beyond its return: the log lines
it emitted, the payload it sent to the endpoint (if the invocation was
reached), and the output object it wrote (if a write happened). -/
structure FileTrace where
  logs : List LogEntry
  invoked : Option String
  written : Option (String × String)

/-- The `try` block of `process_csv_file` (lines 52-82).  The second
component is the exception that escapes the block, if any: a storage read
or parse failure (lines 54-58), an endpoint or JSON-decode failure
(line 65), the `AttributeError` of `prediction_response.keys()` on a
non-dict envelope (line 67), or a write failure (line 80).  A response
envelope without a `'predictions'` key is not an exception: it is logged
and the function returns before any write (lines 72-74). -/
def process_csv_file_body (env : Env) (file_key : String) :
    FileTrace × Option String :=
  match env.getObject file_key with
  | .error e => (⟨[], none, none⟩, some e)
  | .ok file_content =>
    match readCsv file_content with
    | none => (⟨[], none, none⟩, some "ParserError")
    | some df =>
      let input_data := toCsv false df
      let infos := [LogEntry.infoShape df.rows.length df.cols.length,
        LogEntry.infoHead]
      let ir := invoke_sagemaker_endpoint env input_data
      let ilogs := ir.2
      match ir.1 with
      | .error e => (⟨infos ++ ilogs, some input_data, none⟩, some e)
      | .ok resp =>
        match resp with
        | .obj kvs =>
          let keyLogs := [LogEntry.infoKeys (kvs.map Prod.fst)]
          match lookupLast kvs "predictions" with
          | none =>
            (⟨infos ++ ilogs ++ keyLogs ++ [.noPredictionsError],
              some input_data, none⟩, none)
          | some preds =>
            let pr := process_predictions preds df
            match env.putObject (outputKeyOf file_key) (toCsv true pr.1) with
            | .error e =>
              (⟨infos ++ ilogs ++ keyLogs ++ pr.2, some input_data, none⟩,
                some e)
            | .ok _ =>
              (⟨infos ++ ilogs ++ keyLogs ++ pr.2 ++
                  [.infoSaved file_key], some input_data,
                some (outputKeyOf file_key, toCsv true pr.1)⟩, none)
        | _ => (⟨infos ++ ilogs, some input_data, none⟩, some "AttributeError")

/-- Lines 49-84, `process_csv_file`: log the file being processed
(line 50, before the `try`), run the body, and catch any exception it
raises, logging it (line 84) and returning normally. -/
def process_csv_file (env : Env) (file_key : String) : FileTrace :=
  match process_csv_file_body env file_key with
  | (t, some e) =>
    ⟨(LogEntry.infoProcessing file_key :: t.logs) ++ [.fileError file_key e],
      t.invoked, t.written⟩
  | (t, none) => ⟨LogEntry.infoProcessing file_key :: t.logs, t.invoked, t.written⟩

/-- What a whole run did: the log, the files processed in order, and the
`put_object` calls in order. -/
structure RunOutcome where
  logs : List LogEntry
  processed : List String
  writes : List (String × String)

/-- The loop of lines 95-96, over the filtered file list. -/
def runFiles (env : Env) (files : List String) : RunOutcome :=
  match files with
  | [] => ⟨[], [], []⟩
  | f :: tl =>
    let t := process_csv_file env f
    let rest := runFiles env tl
    ⟨t.logs ++ rest.logs, f :: rest.processed,
      (match t.written with | some w => [w] | none => []) ++ rest.writes⟩

/-- Lines 86-98, `process_all_csv_files`: list the input namespace, keep
the keys ending in `.csv`, warn and stop if none remain, otherwise process
each in listing order; a listing failure is caught and logged (line 97-98)
and the function returns normally. -/
def process_all_csv_files (env : Env) : RunOutcome :=
  match env.listObjects with
  | .error e => ⟨[.listError e], [], []⟩
  | .ok keys =>
    let csv_files := keys.filter (fun k => pyEndsWith k ".csv")
    if csv_files.isEmpty then ⟨[.noCsvWarning], [], []⟩
    else runFiles env csv_files

/-- Lines 101-102: the `__main__` entry point.  Every exception a file or
the listing can raise is caught inside `process_all_csv_files`, so the
script always finishes without an uncaught exception; `.ok` is a normal
process exit. -/
def script_main (env : Env) : Except String RunOutcome :=
  .ok (process_all_csv_files env)

/-- Effect of a run's `put_object` calls on the output keyspace: each write
binds its key, a later write to the same key replacing the earlier one. -/
def applyWrites (store : String → Option String) :
    List (String × String) → String → Option String
  | [] => store
  | (k, v) :: tl => applyWrites (fun q => if q = k then some v else store q) tl

/-! ### Round-trip lemmas: `parseJson (dumps v) = some v` -/
theorem skipWs_cons (c : Char) (r : List Char) (h : isWsChar c = false) :
    skipWs (c :: r) = c :: r := by
  simp [skipWs, h]

theorem dropLit_append (ds rest : List Char) : dropLit ds (ds ++ rest) = some rest := by
  induction ds with
  | nil => simp [dropLit]
  | cons d ds ih => simp [dropLit, ih]

theorem digitChar_isDigit (d : Nat) (h : d < 10) : isDigitChar (digitChar d) = true := by
  interval_cases d <;> decide

theorem digitChar_toNat (d : Nat) (h : d < 10) : (digitChar d).toNat = 48 + d := by
  interval_cases d <;> decide

theorem parseDigitsAux_spec (ds : List Nat) (hds : ∀ d ∈ ds, d < 10) (rest : List Char)
    (hr : headNotDigit rest) (acc : Nat) :
    parseDigitsAux (ds.map digitChar ++ rest) acc =
      (ds.foldl (fun a d => a * 10 + d) acc, rest) := by
  induction ds generalizing acc with
  | nil =>
    match rest with
    | [] => simp [parseDigitsAux]
    | c :: r =>
      simp only [headNotDigit] at hr
      simp [parseDigitsAux, hr]
  | cons d ds ih =>
    have hd : d < 10 := hds d (by simp)
    simp only [List.map_cons, List.cons_append, parseDigitsAux,
      digitChar_isDigit d hd, if_true, digitChar_toNat d hd, List.foldl_cons]
    rw [show 48 + d - 48 = d by omega]
    exact ih (fun x hx => hds x (by simp [hx])) _

theorem natDigitsAux_spec (fuel : Nat) : ∀ n, n < fuel →
    (∀ d ∈ natDigitsAux fuel n, d < 10) ∧ natDigitsAux fuel n ≠ [] ∧
      ∀ acc, (natDigitsAux fuel n).foldl (fun a d => a * 10 + d) acc =
        acc * 10 ^ (natDigitsAux fuel n).length + n := by
  induction fuel with
  | zero => intro n hn; omega
  | succ f ih =>
    intro n hn
    by_cases h10 : n < 10
    · simp [natDigitsAux, h10] <;> omega
    · have hdiv : n / 10 < f := by
        have h1 : n / 10 < n := Nat.div_lt_self (by omega) (by omega)
        omega
      obtain ⟨ihd, ihne, ihf⟩ := ih (n / 10) hdiv
      simp only [natDigitsAux, h10, if_false]
      refine ⟨?_, by simp, ?_⟩
      · intro d hd
        rcases List.mem_append.1 hd with h | h
        · exact ihd d h
        · simp at h; omega
      · intro acc
        rw [List.foldl_append, ihf acc]
        simp only [List.foldl_cons, List.foldl_nil, List.length_append,
          List.length_singleton]
        have hmod := Nat.div_add_mod n 10
        rw [pow_succ]
        ring_nf
        omega

theorem natDigits_lt (n : Nat) : ∀ d ∈ natDigits n, d < 10 :=
  (natDigitsAux_spec (n + 1) n (by omega)).1

theorem natDigits_ne_nil (n : Nat) : natDigits n ≠ [] :=
  (natDigitsAux_spec (n + 1) n (by omega)).2.1

theorem natDigits_foldl (n : Nat) :
    (natDigits n).foldl (fun a d => a * 10 + d) 0 = n := by
  have h := (natDigitsAux_spec (n + 1) n (by omega)).2.2 0
  simpa [natDigits] using h

theorem parseDigits1_natChars (n : Nat) (rest : List Char) (hr : headNotDigit rest) :
    parseDigits1 (natChars n ++ rest) = some (n, rest) := by
  obtain ⟨d, ds, hds⟩ : ∃ d ds, natDigits n = d :: ds := by
    match h : natDigits n with
    | [] => exact absurd h (natDigits_ne_nil n)
    | d :: ds => exact ⟨d, ds, rfl⟩
  have hlt := natDigits_lt n
  rw [hds] at hlt
  have hd : d < 10 := hlt d (by simp)
  simp only [natChars, hds, List.map_cons, List.cons_append, parseDigits1,
    digitChar_isDigit d hd, if_true, digitChar_toNat d hd]
  rw [show 48 + d - 48 = d by omega]
  rw [parseDigitsAux_spec ds (fun x hx => hlt x (by simp [hx])) rest hr d]
  have hf := natDigits_foldl n
  rw [hds] at hf
  simp only [List.foldl_cons] at hf
  rw [show (0 : Nat) * 10 + d = d by omega] at hf
  rw [hf]

theorem hexVal_hexDigit (d : Nat) (h : d < 16) : hexVal (hexDigit d) = some d := by
  interval_cases d <;> decide

theorem isDigitChar_ne (c : Char) (h : isDigitChar c = true) :
    c ≠ 'n' ∧ c ≠ 't' ∧ c ≠ 'f' ∧ c ≠ '"' ∧ c ≠ '-' ∧ c ≠ '[' ∧ c ≠ '{' ∧
      isWsChar c = false ∧ c ≠ ']' ∧ c ≠ '}' ∧ c ≠ ',' ∧ c ≠ ':' := by
  refine ⟨?_, ?_, ?_, ?_, ?_, ?_, ?_, ?_, ?_, ?_, ?_, ?_⟩ <;>
    first
      | (rintro rfl; exact absurd h (by decide))
      | (simp only [isWsChar, Bool.or_eq_false_iff, decide_eq_false_iff_not]
         refine ⟨⟨⟨?_, ?_⟩, ?_⟩, ?_⟩ <;> (rintro rfl; exact absurd h (by decide)))

theorem parseJStr_esc (cs : List Char) : ∀ acc rest,
    parseJStr (escString cs ++ '"' :: rest) acc = some (String.mk (acc ++ cs), rest) := by
  induction cs with
  | nil =>
    intro acc rest
    rw [show escString [] ++ '"' :: rest = '"' :: rest from by simp [escString]]
    rw [parseJStr.eq_def]
    simp
  | cons c tl ih =>
    intro acc rest
    simp only [escString, List.append_assoc]
    by_cases h1 : c = '"'
    · subst h1
      rw [show escapeChar '"' = ['\\', '"'] from by simp [escapeChar]]
      rw [List.cons_append, List.cons_append, List.nil_append, parseJStr.eq_def]
      simp [ih]
    · by_cases h2 : c = '\\'
      · subst h2
        rw [show escapeChar '\\' = ['\\', '\\'] from by simp [escapeChar]]
        rw [List.cons_append, List.cons_append, List.nil_append, parseJStr.eq_def]
        simp [ih]
      · by_cases h3 : c = '\n'
        · subst h3
          rw [show escapeChar '\n' = ['\\', 'n'] from by simp [escapeChar]]
          rw [List.cons_append, List.cons_append, List.nil_append, parseJStr.eq_def]
          simp [ih]
        · by_cases h4 : c = '\t'
          · subst h4
            rw [show escapeChar '\t' = ['\\', 't'] from by simp [escapeChar]]
            rw [List.cons_append, List.cons_append, List.nil_append, parseJStr.eq_def]
            simp [ih]
          · by_cases h5 : c = '\r'
            · subst h5
              rw [show escapeChar '\r' = ['\\', 'r'] from by simp [escapeChar]]
              rw [List.cons_append, List.cons_append, List.nil_append, parseJStr.eq_def]
              simp [ih]
            · by_cases h6 : c.toNat < 32
              · have hdiv : c.toNat / 16 < 16 := by omega
                have hmod : c.toNat % 16 < 16 := by omega
                rw [show escapeChar c =
                    ['\\', 'u', '0', '0', hexDigit (c.toNat / 16), hexDigit (c.toNat % 16)]
                  from by simp [escapeChar, h1, h2, h3, h4, h5, h6]]
                simp only [List.cons_append, List.nil_append]
                rw [parseJStr.eq_def]
                simp only [if_neg (by decide : ¬ ('\\' = '"')), if_pos rfl,
                  if_neg (by decide : ¬ ('u' = '"')), if_neg (by decide : ¬ ('u' = '\\')),
                  if_neg (by decide : ¬ ('u' = '/')), if_neg (by decide : ¬ ('u' = 'n')),
                  if_neg (by decide : ¬ ('u' = 't')), if_neg (by decide : ¬ ('u' = 'r')),
                  if_neg (by decide : ¬ ('u' = 'b')), if_neg (by decide : ¬ ('u' = 'f'))]
                rw [show hexVal '0' = some 0 from by decide,
                  hexVal_hexDigit _ hdiv, hexVal_hexDigit _ hmod]
                simp only []
                rw [show ((0 * 16 + 0) * 16 + c.toNat / 16) * 16 + c.toNat % 16 = c.toNat by
                  omega]
                rw [Char.ofNat_toNat, ih]
                simp
              · rw [show escapeChar c = [c] from by simp [escapeChar, h1, h2, h3, h4, h5, h6]]
                rw [List.cons_append, List.nil_append, parseJStr.eq_def]
                simp only [if_neg h1, if_neg h2]
                rw [ih]
                simp

theorem jsize_pos (v : JVal) : 1 ≤ jsize v := by
  cases v <;> simp only [jsize] <;> omega

theorem jsizeList_pos (xs : List JVal) : 1 ≤ jsizeList xs := by
  cases xs <;> simp only [jsizeList] <;> omega

theorem jsizeObj_pos (kvs : List (String × JVal)) : 1 ≤ jsizeObj kvs := by
  match kvs with
  | [] => simp only [jsizeObj]; omega
  | (k, v) :: tl => simp only [jsizeObj]; omega

/-- Unfolding equation for `parseVal` at positive fuel. -/
theorem parseVal_succ (fuel : Nat) (cs : List Char) :
    parseVal (fuel + 1) cs =
      match skipWs cs with
      | [] => none
      | c :: r =>
        if c = 'n' then (dropLit ['u', 'l', 'l'] r).map (fun r2 => (.null, r2))
        else if c = 't' then (dropLit ['r', 'u', 'e'] r).map (fun r2 => (.bool true, r2))
        else if c = 'f' then (dropLit ['a', 'l', 's', 'e'] r).map (fun r2 => (.bool false, r2))
        else if c = '"' then (parseJStr r []).map (fun p => (.str p.1, p.2))
        else if c = '-' then
          match parseDigits1 r with
          | some p => some (.num (-(p.1 : Int)), p.2)
          | none => none
        else if isDigitChar c then
          match parseDigits1 (c :: r) with
          | some p => some (.num (p.1 : Int), p.2)
          | none => none
        else if c = '[' then parseElems fuel r
        else if c = '{' then parseMembers fuel r
        else none := rfl

/-- Unfolding equation for `parseElems` at positive fuel. -/
theorem parseElems_succ (fuel : Nat) (cs : List Char) :
    parseElems (fuel + 1) cs =
      match skipWs cs with
      | [] => none
      | c :: r =>
        if c = ']' then some (.arr [], r)
        else
          (parseVal fuel (c :: r)).bind (fun p =>
            (parseElemsRest fuel p.2).bind (fun q =>
              some (.arr (p.1 :: q.1), q.2))) := rfl

/-- Unfolding equation for `parseElemsRest` at positive fuel. -/
theorem parseElemsRest_succ (fuel : Nat) (cs : List Char) :
    parseElemsRest (fuel + 1) cs =
      match skipWs cs with
      | [] => none
      | c :: r =>
        if c = ']' then some ([], r)
        else if c = ',' then
          (parseVal fuel r).bind (fun p =>
            (parseElemsRest fuel p.2).bind (fun q =>
              some (p.1 :: q.1, q.2)))
        else none := rfl

/-- Unfolding equation for `parseMember` at positive fuel. -/
theorem parseMember_succ (fuel : Nat) (cs : List Char) :
    parseMember (fuel + 1) cs =
      match skipWs cs with
      | [] => none
      | c :: r =>
        if c = '"' then
          (parseJStr r []).bind (fun k =>
            match skipWs k.2 with
            | c2 :: r2 =>
              if c2 = ':' then
                (parseVal fuel r2).bind (fun v => some ((k.1, v.1), v.2))
              else none
            | [] => none)
        else none := rfl

/-- Unfolding equation for `parseMembers` at positive fuel. -/
theorem parseMembers_succ (fuel : Nat) (cs : List Char) :
    parseMembers (fuel + 1) cs =
      match skipWs cs with
      | [] => none
      | c :: r =>
        if c = '}' then some (.obj [], r)
        else
          (parseMember fuel (c :: r)).bind (fun m =>
            (parseMembersRest fuel m.2).bind (fun q =>
              some (.obj (m.1 :: q.1), q.2))) := rfl

/-- Unfolding equation for `parseMembersRest` at positive fuel. -/
theorem parseMembersRest_succ (fuel : Nat) (cs : List Char) :
    parseMembersRest (fuel + 1) cs =
      match skipWs cs with
      | [] => none
      | c :: r =>
        if c = '}' then some ([], r)
        else if c = ',' then
          (parseMember fuel r).bind (fun m =>
            (parseMembersRest fuel m.2).bind (fun q =>
              some (m.1 :: q.1, q.2)))
        else none := rfl

theorem natChars_head (n : Nat) :
    ∃ c r, natChars n = c :: r ∧ isDigitChar c = true := by
  obtain ⟨d, ds, hds⟩ : ∃ d ds, natDigits n = d :: ds := by
    match h : natDigits n with
    | [] => exact absurd h (natDigits_ne_nil n)
    | d :: ds => exact ⟨d, ds, rfl⟩
  have hd : d < 10 := natDigits_lt n d (by rw [hds]; simp)
  exact ⟨digitChar d, ds.map digitChar, by simp [natChars, hds], digitChar_isDigit d hd⟩

theorem dumpChars_head (v : JVal) :
    ∃ c r, dumpChars v = c :: r ∧ isWsChar c = false ∧ c ≠ ']' ∧ c ≠ '}' ∧ c ≠ ',' := by
  match v with
  | .null => exact ⟨'n', _, rfl, by decide, by decide, by decide, by decide⟩
  | .bool true => exact ⟨'t', _, rfl, by decide, by decide, by decide, by decide⟩
  | .bool false => exact ⟨'f', _, rfl, by decide, by decide, by decide, by decide⟩
  | .num n =>
    rw [show dumpChars (.num n) = intChars n from rfl]
    by_cases hneg : n < 0
    · refine ⟨'-', natChars n.natAbs, ?_, by decide, by decide, by decide, by decide⟩
      simp [intChars, hneg]
    · obtain ⟨c, r, hcr, hc⟩ := natChars_head n.toNat
      obtain ⟨-, -, -, -, -, -, -, hws, hrb, hcb, hcm, -⟩ := isDigitChar_ne c hc
      refine ⟨c, r, ?_, hws, hrb, hcb, hcm⟩
      rw [show intChars n = natChars n.toNat from by simp [intChars, hneg], hcr]
  | .str s => exact ⟨'"', _, rfl, by decide, by decide, by decide, by decide⟩
  | .arr [] => exact ⟨'[', _, rfl, by decide, by decide, by decide, by decide⟩
  | .arr (w :: tl) => exact ⟨'[', _, rfl, by decide, by decide, by decide, by decide⟩
  | .obj [] => exact ⟨'{', _, rfl, by decide, by decide, by decide, by decide⟩
  | .obj ((k, w) :: tl) => exact ⟨'{', _, rfl, by decide, by decide, by decide, by decide⟩

theorem headNotDigit_listRest (tl : List JVal) (rest : List Char) :
    headNotDigit (dumpListRest tl ++ ']' :: rest) := by
  cases tl <;> simp only [dumpListRest, headNotDigit, List.nil_append, List.cons_append] <;>
    decide

theorem headNotDigit_objRest (tl : List (String × JVal)) (rest : List Char) :
    headNotDigit (dumpObjRest tl ++ '}' :: rest) := by
  match tl with
  | [] => simp only [dumpObjRest, headNotDigit, List.nil_append]; decide
  | (k, v) :: tl =>
    simp only [dumpObjRest, headNotDigit, List.nil_append, List.cons_append]; decide

theorem parseVal_ws (fuel : Nat) (c : Char) (cs : List Char) (h : isWsChar c = true) :
    parseVal fuel (c :: cs) = parseVal fuel cs := by
  match fuel with
  | 0 => rfl
  | fuel + 1 =>
    rw [parseVal_succ, parseVal_succ, show skipWs (c :: cs) = skipWs cs from by
      simp [skipWs, h]]

theorem parseMember_ws (fuel : Nat) (c : Char) (cs : List Char) (h : isWsChar c = true) :
    parseMember fuel (c :: cs) = parseMember fuel cs := by
  match fuel with
  | 0 => rfl
  | fuel + 1 =>
    rw [parseMember_succ, parseMember_succ, show skipWs (c :: cs) = skipWs cs from by
      simp [skipWs, h]]

/- Completeness of the parser on printer output: the mutual induction follows
the printer's structure, with the fuel bounded below by the value size. -/
mutual

theorem parseVal_dump (v : JVal) (fuel : Nat) (rest : List Char)
    (hf : jsize v ≤ fuel) (hr : headNotDigit rest) :
    parseVal fuel (dumpChars v ++ rest) = some (v, rest) := by
  match v, fuel with
  | v, 0 => exact absurd (le_trans (jsize_pos v) hf) (by omega)
  | .null, fuel + 1 =>
    rw [show dumpChars .null ++ rest = 'n' :: (['u', 'l', 'l'] ++ rest) from rfl,
      parseVal_succ, skipWs_cons _ _ (by decide)]
    simp [dropLit]
  | .bool true, fuel + 1 =>
    rw [show dumpChars (.bool true) ++ rest = 't' :: (['r', 'u', 'e'] ++ rest) from rfl,
      parseVal_succ, skipWs_cons _ _ (by decide)]
    simp [dropLit]
  | .bool false, fuel + 1 =>
    rw [show dumpChars (.bool false) ++ rest = 'f' :: (['a', 'l', 's', 'e'] ++ rest) from rfl,
      parseVal_succ, skipWs_cons _ _ (by decide)]
    simp [dropLit]
  | .str s, fuel + 1 =>
    rw [show dumpChars (.str s) ++ rest = '"' :: (escString s.data ++ '"' :: rest) from by
      simp [dumpChars, dumpStrChars], parseVal_succ, skipWs_cons _ _ (by decide)]
    simp [parseJStr_esc s.data [] rest]
  | .num n, fuel + 1 =>
    by_cases hneg : n < 0
    · rw [show dumpChars (.num n) ++ rest = '-' :: (natChars n.natAbs ++ rest) from by
        simp only [dumpChars, intChars, if_pos hneg, List.cons_append],
        parseVal_succ, skipWs_cons _ _ (by decide)]
      simp only [if_neg (show ¬ ('-' = 'n') from by decide),
        if_neg (show ¬ ('-' = 't') from by decide), if_neg (show ¬ ('-' = 'f') from by decide),
        if_neg (show ¬ ('-' = '"') from by decide), if_pos rfl, eq_self_iff_true, if_true,
        parseDigits1_natChars n.natAbs rest hr]
      rw [show -(n.natAbs : Int) = n from by omega]
    · obtain ⟨c, cr, hcr, hc⟩ := natChars_head n.toNat
      obtain ⟨hn, ht, hfc, hq, hm, hlb, hob, hws, -, -, -, -⟩ := isDigitChar_ne c hc
      rw [show dumpChars (.num n) ++ rest = natChars n.toNat ++ rest from by
        simp only [dumpChars, intChars, if_neg hneg]]
      rw [hcr, List.cons_append, parseVal_succ, skipWs_cons _ _ hws]
      simp only [if_neg hn, if_neg ht, if_neg hfc, if_neg hq, if_neg hm, hc, if_true]
      rw [show c :: (cr ++ rest) = natChars n.toNat ++ rest from by rw [hcr]; simp]
      simp only [parseDigits1_natChars n.toNat rest hr,
        show ((n.toNat : Nat) : Int) = n from by omega]
  | .arr [], fuel + 1 =>
    simp only [jsize, jsizeList] at hf
    obtain ⟨fuel, rfl⟩ : ∃ f, fuel = f + 1 := ⟨fuel - 1, by omega⟩
    rw [show dumpChars (.arr []) ++ rest = '[' :: (']' :: rest) from rfl,
      parseVal_succ, skipWs_cons _ _ (by decide)]
    simp only [if_neg (show ¬ ('[' = 'n') from by decide),
      if_neg (show ¬ ('[' = 't') from by decide), if_neg (show ¬ ('[' = 'f') from by decide),
      if_neg (show ¬ ('[' = '"') from by decide), if_neg (show ¬ ('[' = '-') from by decide),
      show isDigitChar '[' = false from by decide, Bool.false_eq_true, if_false, if_pos rfl,
      eq_self_iff_true, if_true]
    rw [parseElems_succ, skipWs_cons _ _ (by decide)]
    simp
  | .arr (w :: tl), fuel + 1 =>
    simp only [jsize, jsizeList] at hf
    rw [show dumpChars (.arr (w :: tl)) ++ rest =
        '[' :: (dumpChars w ++ (dumpListRest tl ++ ']' :: rest)) from by
      simp [dumpChars], parseVal_succ, skipWs_cons _ _ (by decide)]
    simp only [if_neg (show ¬ ('[' = 'n') from by decide),
      if_neg (show ¬ ('[' = 't') from by decide), if_neg (show ¬ ('[' = 'f') from by decide),
      if_neg (show ¬ ('[' = '"') from by decide), if_neg (show ¬ ('[' = '-') from by decide),
      show isDigitChar '[' = false from by decide, Bool.false_eq_true, if_false, if_pos rfl,
      eq_self_iff_true, if_true]
    exact parseElems_dump w tl fuel rest (by omega) hr
  | .obj [], fuel + 1 =>
    simp only [jsize, jsizeObj] at hf
    obtain ⟨fuel, rfl⟩ : ∃ f, fuel = f + 1 := ⟨fuel - 1, by omega⟩
    rw [show dumpChars (.obj []) ++ rest = '{' :: ('}' :: rest) from rfl,
      parseVal_succ, skipWs_cons _ _ (by decide)]
    simp only [if_neg (show ¬ ('{' = 'n') from by decide),
      if_neg (show ¬ ('{' = 't') from by decide), if_neg (show ¬ ('{' = 'f') from by decide),
      if_neg (show ¬ ('{' = '"') from by decide), if_neg (show ¬ ('{' = '-') from by decide),
      show isDigitChar '{' = false from by decide, Bool.false_eq_true, if_false,
      if_neg (show ¬ ('{' = '[') from by decide), if_pos rfl, eq_self_iff_true, if_true]
    rw [parseMembers_succ, skipWs_cons _ _ (by decide)]
    simp
  | .obj ((k, w) :: tl), fuel + 1 =>
    simp only [jsize, jsizeObj] at hf
    rw [show dumpChars (.obj ((k, w) :: tl)) ++ rest =
        '{' :: (dumpStrChars k ++ ':' :: ' ' :: dumpChars w ++
          (dumpObjRest tl ++ '}' :: rest)) from by
      simp [dumpChars], parseVal_succ, skipWs_cons _ _ (by decide)]
    simp only [if_neg (show ¬ ('{' = 'n') from by decide),
      if_neg (show ¬ ('{' = 't') from by decide), if_neg (show ¬ ('{' = 'f') from by decide),
      if_neg (show ¬ ('{' = '"') from by decide), if_neg (show ¬ ('{' = '-') from by decide),
      show isDigitChar '{' = false from by decide, Bool.false_eq_true, if_false,
      if_neg (show ¬ ('{' = '[') from by decide), if_pos rfl, eq_self_iff_true, if_true]
    exact parseMembers_dump k w tl fuel rest (by omega) hr
termination_by 2 * jsize v
decreasing_by all_goals ((try simp only [jsize, jsizeList, jsizeObj]); omega)

theorem parseElems_dump (w : JVal) (tl : List JVal) (fuel : Nat) (rest : List Char)
    (hf : 1 + jsize w + jsizeList tl ≤ fuel) (hr : headNotDigit rest) :
    parseElems fuel (dumpChars w ++ (dumpListRest tl ++ ']' :: rest)) =
      some (.arr (w :: tl), rest) := by
  have hw := jsize_pos w
  have htl := jsizeList_pos tl
  obtain ⟨fuel, rfl⟩ : ∃ f, fuel = f + 1 := ⟨fuel - 1, by omega⟩
  obtain ⟨c, r, hpr, hws, hrb, hcb, hcm⟩ := dumpChars_head w
  rw [hpr, List.cons_append, parseElems_succ, skipWs_cons _ _ hws]
  simp only [if_neg hrb]
  rw [show c :: (r ++ (dumpListRest tl ++ ']' :: rest)) =
      dumpChars w ++ (dumpListRest tl ++ ']' :: rest) from by rw [hpr]; simp]
  rw [parseVal_dump w fuel _ (by omega) (headNotDigit_listRest tl rest)]
  simp only [Option.some_bind]
  rw [parseElemsRest_dump tl fuel rest (by omega) hr]
  rfl
termination_by 2 * (1 + jsize w + jsizeList tl)
decreasing_by all_goals ((try simp only [jsize, jsizeList, jsizeObj]); omega)

theorem parseElemsRest_dump (tl : List JVal) (fuel : Nat) (rest : List Char)
    (hf : jsizeList tl ≤ fuel) (hr : headNotDigit rest) :
    parseElemsRest fuel (dumpListRest tl ++ ']' :: rest) = some (tl, rest) := by
  match tl, fuel with
  | tl, 0 => exact absurd (le_trans (jsizeList_pos tl) hf) (by omega)
  | [], fuel + 1 =>
    rw [show dumpListRest [] ++ ']' :: rest = ']' :: rest from by simp [dumpListRest],
      parseElemsRest_succ, skipWs_cons _ _ (by decide)]
    simp
  | w :: tl, fuel + 1 =>
    simp only [jsizeList] at hf
    rw [show dumpListRest (w :: tl) ++ ']' :: rest =
        ',' :: (' ' :: (dumpChars w ++ (dumpListRest tl ++ ']' :: rest))) from by
      simp [dumpListRest], parseElemsRest_succ, skipWs_cons _ _ (by decide)]
    simp only [if_neg (show ¬ (',' = ']') from by decide), if_pos rfl, eq_self_iff_true,
      if_true]
    rw [parseVal_ws fuel ' ' _ (by decide),
      parseVal_dump w fuel _ (by omega) (headNotDigit_listRest tl rest)]
    simp only [Option.some_bind]
    rw [parseElemsRest_dump tl fuel rest (by omega) hr]
    rfl
termination_by 2 * jsizeList tl
decreasing_by all_goals ((try simp only [jsize, jsizeList, jsizeObj]); omega)

theorem parseMember_dump (k : String) (w : JVal) (fuel : Nat) (rest : List Char)
    (hf : jsize w + 1 ≤ fuel) (hr : headNotDigit rest) :
    parseMember fuel (dumpStrChars k ++ ':' :: ' ' :: dumpChars w ++ rest) =
      some ((k, w), rest) := by
  have hw := jsize_pos w
  obtain ⟨fuel, rfl⟩ : ∃ f, fuel = f + 1 := ⟨fuel - 1, by omega⟩
  rw [show dumpStrChars k ++ ':' :: ' ' :: dumpChars w ++ rest =
      '"' :: (escString k.data ++ '"' :: (':' :: ' ' :: (dumpChars w ++ rest))) from by
    simp [dumpStrChars], parseMember_succ, skipWs_cons _ _ (by decide)]
  simp only [if_pos rfl, eq_self_iff_true, if_true]
  rw [parseJStr_esc k.data [] _]
  simp only [Option.some_bind, List.nil_append]
  rw [skipWs_cons _ _ (by decide)]
  simp only [if_pos rfl, eq_self_iff_true, if_true]
  rw [parseVal_ws fuel ' ' _ (by decide),
    parseVal_dump w fuel rest (by omega) hr]
  simp only [Option.some_bind]
termination_by 2 * jsize w + 1
decreasing_by all_goals ((try simp only [jsize, jsizeList, jsizeObj]); omega)

theorem parseMembers_dump (k : String) (w : JVal) (tl : List (String × JVal)) (fuel : Nat)
    (rest : List Char) (hf : 1 + jsize w + jsizeObj tl ≤ fuel) (hr : headNotDigit rest) :
    parseMembers fuel (dumpStrChars k ++ ':' :: ' ' :: dumpChars w ++
      (dumpObjRest tl ++ '}' :: rest)) = some (.obj ((k, w) :: tl), rest) := by
  have hw := jsize_pos w
  have htl := jsizeObj_pos tl
  obtain ⟨fuel, rfl⟩ : ∃ f, fuel = f + 1 := ⟨fuel - 1, by omega⟩
  rw [show dumpStrChars k ++ ':' :: ' ' :: dumpChars w ++ (dumpObjRest tl ++ '}' :: rest) =
      '"' :: (escString k.data ++ '"' :: (':' :: ' ' :: dumpChars w ++
        (dumpObjRest tl ++ '}' :: rest))) from by
    simp [dumpStrChars], parseMembers_succ, skipWs_cons _ _ (by decide)]
  simp only [if_neg (show ¬ ('"' = '}') from by decide)]
  rw [show '"' :: (escString k.data ++ '"' :: (':' :: ' ' :: dumpChars w ++
      (dumpObjRest tl ++ '}' :: rest))) =
      dumpStrChars k ++ ':' :: ' ' :: dumpChars w ++ (dumpObjRest tl ++ '}' :: rest) from by
    simp [dumpStrChars]]
  rw [parseMember_dump k w fuel _ (by omega) (headNotDigit_objRest tl rest)]
  simp only [Option.some_bind]
  rw [parseMembersRest_dump tl fuel rest (by omega) hr]
  rfl
termination_by 2 * (1 + jsize w + jsizeObj tl)
decreasing_by all_goals ((try simp only [jsize, jsizeList, jsizeObj]); omega)

theorem parseMembersRest_dump (tl : List (String × JVal)) (fuel : Nat) (rest : List Char)
    (hf : jsizeObj tl ≤ fuel) (hr : headNotDigit rest) :
    parseMembersRest fuel (dumpObjRest tl ++ '}' :: rest) = some (tl, rest) := by
  match tl, fuel with
  | tl, 0 => exact absurd (le_trans (jsizeObj_pos tl) hf) (by omega)
  | [], fuel + 1 =>
    rw [show dumpObjRest [] ++ '}' :: rest = '}' :: rest from by simp [dumpObjRest],
      parseMembersRest_succ, skipWs_cons _ _ (by decide)]
    simp
  | (k, w) :: tl, fuel + 1 =>
    simp only [jsizeObj] at hf
    have htl := jsizeObj_pos tl
    rw [show dumpObjRest ((k, w) :: tl) ++ '}' :: rest =
        ',' :: (' ' :: (dumpStrChars k ++ ':' :: ' ' :: dumpChars w ++
          (dumpObjRest tl ++ '}' :: rest))) from by
      simp [dumpObjRest], parseMembersRest_succ, skipWs_cons _ _ (by decide)]
    simp only [if_neg (show ¬ (',' = '}') from by decide), if_pos rfl, eq_self_iff_true,
      if_true]
    rw [parseMember_ws fuel ' ' _ (by decide),
      parseMember_dump k w fuel _ (by omega) (headNotDigit_objRest tl rest)]
    simp only [Option.some_bind]
    rw [parseMembersRest_dump tl fuel rest (by omega) hr]
    rfl
termination_by 2 * jsizeObj tl
decreasing_by all_goals ((try simp only [jsize, jsizeList, jsizeObj]); omega)

end

/- Fuel adequacy: the structural size is dominated by (twice) the printed
length, so the input-length-derived fuel in `parseJson` suffices. -/
mutual

theorem jsize_le_len (v : JVal) : jsize v ≤ 2 * (dumpChars v).length := by
  match v with
  | .null => simp [jsize, dumpChars]
  | .bool true => simp [jsize, dumpChars]
  | .bool false => simp [jsize, dumpChars]
  | .num n =>
    obtain ⟨c, r, hcr, -, -, -, -⟩ := dumpChars_head (.num n)
    simp only [jsize, hcr, List.length_cons]
    omega
  | .str s => simp [jsize, dumpChars, dumpStrChars]; omega
  | .arr [] => simp [jsize, jsizeList, dumpChars]
  | .arr (w :: tl) =>
    have h1 := jsize_le_len w
    have h2 := jsizeList_le_len tl
    simp only [jsize, jsizeList, dumpChars, List.length_cons, List.length_append]
    omega
  | .obj [] => simp [jsize, jsizeObj, dumpChars]
  | .obj ((k, w) :: tl) =>
    have h1 := jsize_le_len w
    have h2 := jsizeObj_le_len tl
    simp only [jsize, jsizeObj, dumpChars, List.length_cons, List.length_append]
    omega
termination_by 2 * jsize v
decreasing_by all_goals ((try simp only [jsize, jsizeList, jsizeObj]); omega)

theorem jsizeList_le_len (tl : List JVal) :
    jsizeList tl ≤ 2 * (dumpListRest tl).length + 2 := by
  match tl with
  | [] => simp [jsizeList, dumpListRest]
  | w :: tl =>
    have h1 := jsize_le_len w
    have h2 := jsizeList_le_len tl
    simp only [jsizeList, dumpListRest, List.length_cons, List.length_append]
    omega
termination_by 2 * jsizeList tl
decreasing_by all_goals ((try simp only [jsize, jsizeList, jsizeObj]); omega)

theorem jsizeObj_le_len (tl : List (String × JVal)) :
    jsizeObj tl ≤ 2 * (dumpObjRest tl).length + 2 := by
  match tl with
  | [] => simp [jsizeObj, dumpObjRest]
  | (k, w) :: tl =>
    have h1 := jsize_le_len w
    have h2 := jsizeObj_le_len tl
    simp only [jsizeObj, dumpObjRest, List.length_cons, List.length_append]
    omega
termination_by 2 * jsizeObj tl
decreasing_by all_goals ((try simp only [jsize, jsizeList, jsizeObj]); omega)

end

/-- Round trip of the JSON model: parsing the dumped text of any value
yields the value back.  (This backs the spec sentence that composite
prediction values are stored as JSON text decodable to the original
structure.) -/
theorem parseJson_dumps (v : JVal) : parseJson (dumps v) = some v := by
  have hfuel : jsize v ≤ 2 * (dumps v).length + 2 := by
    have h := jsize_le_len v
    simp only [dumps, String.length]
    omega
  have h := parseVal_dump v (2 * (dumps v).length + 2) [] hfuel (by simp [headNotDigit])
  rw [List.append_nil] at h
  simp only [parseJson, dumps] at h ⊢
  rw [h]
  simp [skipWs]

/-! ### Lemmas about column lookup -/
theorem colIdx_some (cols : List String) (k : String) (j : Nat)
    (h : colIdx cols k = some j) : j < cols.length ∧ cols[j]? = some k := by
  induction cols generalizing j with
  | nil => simp [colIdx] at h
  | cons c tl ih =>
    by_cases hc : c = k
    · simp only [colIdx, if_pos hc] at h
      cases h
      simp [hc]
    · simp only [colIdx, if_neg hc, Option.map_eq_some'] at h
      obtain ⟨j', hj', rfl⟩ := h
      obtain ⟨h1, h2⟩ := ih j' hj'
      simp only [List.length_cons, List.getElem?_cons_succ]
      exact ⟨by omega, h2⟩

theorem colIdx_none_iff (cols : List String) (k : String) :
    colIdx cols k = none ↔ k ∉ cols := by
  induction cols with
  | nil => simp [colIdx]
  | cons c tl ih =>
    by_cases hc : c = k
    · simp [colIdx, hc]
    · simp [colIdx, hc, ih, Ne.symm hc]

theorem colIdx_mem (cols : List String) (k : String) (h : k ∈ cols) :
    ∃ j, colIdx cols k = some j := by
  match hj : colIdx cols k with
  | some j => exact ⟨j, rfl⟩
  | none => exact absurd ((colIdx_none_iff cols k).1 hj) (by simp [h])

theorem colIdx_append_left (cols l2 : List String) (k : String) (j : Nat)
    (h : colIdx cols k = some j) : colIdx (cols ++ l2) k = some j := by
  induction cols generalizing j with
  | nil => simp [colIdx] at h
  | cons c tl ih =>
    by_cases hc : c = k
    · simp only [colIdx, if_pos hc] at h
      cases h
      simp [colIdx, hc]
    · simp only [colIdx, if_neg hc, Option.map_eq_some'] at h
      obtain ⟨j', hj', rfl⟩ := h
      simp only [List.cons_append, colIdx, if_neg hc]
      rw [show (tl.append l2 : List String) = tl ++ l2 from rfl, ih j' hj',
        Option.map_some']

theorem colIdx_append_new (cols : List String) (k : String) (h : k ∉ cols) :
    colIdx (cols ++ [k]) k = some cols.length := by
  induction cols with
  | nil => simp [colIdx]
  | cons c tl ih =>
    have hc : c ≠ k := by rintro rfl; simp at h
    simp only [List.cons_append, colIdx, if_neg hc]
    rw [show (tl.append [k] : List String) = tl ++ [k] from rfl,
      ih (by intro hmem; exact h (by simp [hmem])), Option.map_some', List.length_cons]

theorem colIdx_append_ne (cols : List String) (k k2 : String) (h : k ∉ cols)
    (hne : k ≠ k2) : colIdx (cols ++ [k2]) k = none := by
  rw [colIdx_none_iff]
  simp [h, hne]

/-! ### Lemmas about `setCell` and `getCell` -/
theorem setCell_rows_length (df : DataFrame) (i : Nat) (k : String) (c : Cell) :
    (setCell df i k c).rows.length = df.rows.length := by
  unfold setCell
  match colIdx df.cols k with
  | some j => simp
  | none => simp

theorem setCell_cols_mono (df : DataFrame) (i : Nat) (k : String) (c : Cell)
    (x : String) (hx : x ∈ df.cols) : x ∈ (setCell df i k c).cols := by
  unfold setCell
  match colIdx df.cols k with
  | some j => simpa using hx
  | none => simp [hx]

theorem setCell_key_mem (df : DataFrame) (i : Nat) (k : String) (c : Cell) :
    k ∈ (setCell df i k c).cols := by
  unfold setCell
  match hj : colIdx df.cols k with
  | some j =>
    obtain ⟨h1, h2⟩ := colIdx_some _ _ _ hj
    rw [List.getElem?_eq_getElem h1] at h2
    have : df.cols[j] = k := by simpa using h2
    simpa using this ▸ List.getElem_mem h1
  | none => simp

theorem rowAt_mem (df : DataFrame) (i : Nat) (hi : i < df.rows.length) :
    df.rows.getD i [] ∈ df.rows := by
  rw [List.getD_eq_getElem?_getD, List.getElem?_eq_getElem hi]
  exact List.getElem_mem hi

theorem rowAt_length (df : DataFrame) (i : Nat) (hwf : WF df)
    (hi : i < df.rows.length) : (df.rows.getD i []).length = df.cols.length :=
  hwf _ (rowAt_mem df i hi)

theorem WF_setCell (df : DataFrame) (i : Nat) (k : String) (c : Cell)
    (hwf : WF df) : WF (setCell df i k c) := by
  by_cases hi : i < df.rows.length
  · match hj : colIdx df.cols k with
    | some j =>
      simp only [setCell, hj]
      intro r hr
      rcases List.mem_or_eq_of_mem_set hr with h | rfl
      · exact hwf r h
      · show ((df.rows.getD i []).set j c).length = df.cols.length
        rw [List.length_set, rowAt_length df i hwf hi]
    | none =>
      simp only [setCell, hj]
      intro r hr
      rcases List.mem_or_eq_of_mem_set hr with h | rfl
      · obtain ⟨r0, hr0, rfl⟩ := List.mem_map.1 h
        show (r0 ++ [none]).length = (df.cols ++ [k]).length
        rw [List.length_append, List.length_append, hwf r0 hr0]
        rfl
      · show (df.rows.getD i [] ++ [c]).length = (df.cols ++ [k]).length
        rw [List.length_append, List.length_append, rowAt_length df i hwf hi]
        rfl
  · match hj : colIdx df.cols k with
    | some j =>
      simp only [setCell, hj]
      rw [List.set_eq_of_length_le (by omega)]
      intro r hr
      exact hwf r hr
    | none =>
      simp only [setCell, hj]
      rw [List.set_eq_of_length_le (by rw [List.length_map]; omega)]
      intro r hr
      obtain ⟨r0, hr0, rfl⟩ := List.mem_map.1 hr
      show (r0 ++ [none]).length = (df.cols ++ [k]).length
      rw [List.length_append, List.length_append, hwf r0 hr0]
      rfl

theorem getCell_setCell_same (df : DataFrame) (i : Nat) (k : String) (c : Cell)
    (hwf : WF df) (hi : i < df.rows.length) :
    getCell (setCell df i k c) i k = some c := by
  unfold setCell
  match hj : colIdx df.cols k with
  | some j =>
    obtain ⟨hjlen, -⟩ := colIdx_some _ _ _ hj
    simp only [getCell, hj]
    rw [List.getElem?_set_self (by simpa using hi)]
    simp only [Option.some_bind]
    rw [List.getElem?_set_self (by rw [rowAt_length df i hwf hi]; omega)]
  | none =>
    simp only [getCell, colIdx_append_new df.cols k ((colIdx_none_iff _ _).1 hj)]
    rw [List.getElem?_set_self (by simpa using hi)]
    simp only [Option.some_bind]
    rw [List.getElem?_append_right (by rw [rowAt_length df i hwf hi])]
    rw [show df.cols.length - (df.rows.getD i []).length = 0 from by
      rw [rowAt_length df i hwf hi]; omega]
    rfl

theorem getCell_setCell_ne_key (df : DataFrame) (i i2 : Nat) (k k2 : String)
    (c : Cell) (hwf : WF df) (hne : k2 ≠ k) :
    getCell (setCell df i2 k c) i k2 = getCell df i k2 := by
  unfold setCell
  match hj2 : colIdx df.cols k2 with
  | some j2 =>
    obtain ⟨hj2len, hj2get⟩ := colIdx_some _ _ _ hj2
    match hj : colIdx df.cols k with
    | some j =>
      obtain ⟨hjlen, hjget⟩ := colIdx_some _ _ _ hj
      have hjj : j ≠ j2 := by
        rintro rfl
        rw [hjget] at hj2get
        exact hne (by simpa using hj2get.symm)
      simp only [getCell, hj2]
      by_cases hii : i = i2
      · subst hii
        by_cases hi : i < df.rows.length
        · rw [List.getElem?_set_self (by simpa using hi), List.getElem?_eq_getElem hi]
          simp only [Option.some_bind]
          rw [List.getElem?_set_ne hjj]
          rw [List.getD_eq_getElem?_getD, List.getElem?_eq_getElem hi]
          rfl
        · rw [List.set_eq_of_length_le (by omega)]
      · rw [List.getElem?_set_ne (Ne.symm hii)]
    | none =>
      simp only [getCell,
        colIdx_append_left df.cols [k] k2 j2 hj2, hj2]
      by_cases hii : i = i2
      · subst hii
        by_cases hi : i < df.rows.length
        · rw [List.getElem?_set_self (by simpa using hi), List.getElem?_eq_getElem hi]
          simp only [Option.some_bind]
          rw [List.getElem?_append_left (by rw [rowAt_length df i hwf hi]; omega)]
          rw [List.getD_eq_getElem?_getD, List.getElem?_eq_getElem hi]
          rfl
        · rw [List.set_eq_of_length_le (by simpa using by omega),
            List.getElem?_eq_none (by simpa using by omega),
            List.getElem?_eq_none (by omega)]
      · rw [List.getElem?_set_ne (Ne.symm hii), List.getElem?_map]
        match hrow : df.rows[i]? with
        | none => rfl
        | some r =>
          have hrlen : r.length = df.cols.length := by
            have hlt : i < df.rows.length := by
              by_contra hge
              rw [List.getElem?_eq_none (by omega)] at hrow
              exact Option.noConfusion hrow
            have : r ∈ df.rows := by
              rw [List.getElem?_eq_getElem hlt] at hrow
              exact (by simpa using hrow : df.rows[i] = r) ▸ List.getElem_mem hlt
            exact hwf r this
          simp only [Option.map_some', Option.some_bind]
          rw [List.getElem?_append_left (by omega)]
  | none =>
    match hj : colIdx df.cols k with
    | some j =>
      simp only [getCell, hj2]
    | none =>
      simp only [getCell,
        colIdx_append_ne df.cols k2 k ((colIdx_none_iff _ _).1 hj2) hne, hj2]

theorem getCell_setCell_ne_row (df : DataFrame) (i i2 : Nat) (k k2 : String)
    (c : Cell) (hwf : WF df) (hii : i ≠ i2) (hk2 : k2 ∈ df.cols) :
    getCell (setCell df i2 k c) i k2 = getCell df i k2 := by
  by_cases hne : k2 = k
  case neg => exact getCell_setCell_ne_key df i i2 k k2 c hwf hne
  case pos =>
    subst hne
    unfold setCell
    match hj : colIdx df.cols k2 with
    | some j =>
      simp only [getCell, hj]
      rw [List.getElem?_set_ne (Ne.symm hii)]
    | none => exact absurd ((colIdx_none_iff _ _).1 hj) (by simp [hk2])

/-! ### Lemmas about `applyRecord` and `applyRecords` -/
theorem applyRecord_rows_length (kvs : List (String × JVal)) (df : DataFrame) (i : Nat) :
    (applyRecord df i kvs).rows.length = df.rows.length := by
  induction kvs generalizing df with
  | nil => rfl
  | cons kv tl ih =>
    obtain ⟨k, v⟩ := kv
    rw [applyRecord, ih, setCell_rows_length]

theorem WF_applyRecord (kvs : List (String × JVal)) (df : DataFrame) (i : Nat)
    (hwf : WF df) : WF (applyRecord df i kvs) := by
  induction kvs generalizing df with
  | nil => exact hwf
  | cons kv tl ih =>
    obtain ⟨k, v⟩ := kv
    exact ih _ (WF_setCell _ _ _ _ hwf)

theorem applyRecord_cols_mono (kvs : List (String × JVal)) (df : DataFrame) (i : Nat)
    (x : String) (hx : x ∈ df.cols) : x ∈ (applyRecord df i kvs).cols := by
  induction kvs generalizing df with
  | nil => exact hx
  | cons kv tl ih =>
    obtain ⟨k, v⟩ := kv
    exact ih _ (setCell_cols_mono _ _ _ _ _ hx)

theorem applyRecord_key_mem (kvs : List (String × JVal)) (df : DataFrame) (i : Nat)
    (k : String) (v : JVal) (hkv : (k, v) ∈ kvs) : k ∈ (applyRecord df i kvs).cols := by
  induction kvs generalizing df with
  | nil => simp at hkv
  | cons kv tl ih =>
    obtain ⟨k0, v0⟩ := kv
    rcases List.mem_cons.1 hkv with h | h
    · cases h
      rw [applyRecord]
      exact applyRecord_cols_mono _ _ _ _ (setCell_key_mem _ _ _ _)
    · exact ih _ h

theorem getCell_applyRecord_notkey (kvs : List (String × JVal)) (df : DataFrame)
    (i i2 : Nat) (k : String) (hk : ∀ kv ∈ kvs, kv.1 ≠ k) (hwf : WF df) :
    getCell (applyRecord df i2 kvs) i k = getCell df i k := by
  induction kvs generalizing df with
  | nil => rfl
  | cons kv tl ih =>
    obtain ⟨k0, v0⟩ := kv
    have hne : k ≠ k0 := Ne.symm (hk (k0, v0) (by simp))
    rw [applyRecord, ih _ (fun kv hkv => hk kv (by simp [hkv])) (WF_setCell _ _ _ _ hwf),
      getCell_setCell_ne_key df i i2 k0 k _ hwf hne]

theorem getCell_applyRecord_same (kvs : List (String × JVal)) (df : DataFrame)
    (i : Nat) (k : String) (v : JVal) (hwf : WF df) (hi : i < df.rows.length)
    (hnd : (kvs.map Prod.fst).Nodup) (hkv : (k, v) ∈ kvs) :
    getCell (applyRecord df i kvs) i k = some (predValueCell v) := by
  induction kvs generalizing df with
  | nil => simp at hkv
  | cons kv tl ih =>
    obtain ⟨k0, v0⟩ := kv
    simp only [List.map_cons, List.nodup_cons] at hnd
    rcases List.mem_cons.1 hkv with h | h
    · cases h
      rw [applyRecord]
      rw [getCell_applyRecord_notkey tl _ i i k
        (fun kv hkv2 => by
          rintro rfl
          exact hnd.1 (List.mem_map.2 ⟨kv, hkv2, rfl⟩))
        (WF_setCell _ _ _ _ hwf)]
      exact getCell_setCell_same df i k _ hwf hi
    · exact ih _ (WF_setCell _ _ _ _ hwf) (by rwa [setCell_rows_length]) hnd.2 h

theorem getCell_applyRecord_ne_row (kvs : List (String × JVal)) (df : DataFrame)
    (i i2 : Nat) (k : String) (hwf : WF df) (hii : i ≠ i2) (hk : k ∈ df.cols) :
    getCell (applyRecord df i2 kvs) i k = getCell df i k := by
  induction kvs generalizing df with
  | nil => rfl
  | cons kv tl ih =>
    obtain ⟨k0, v0⟩ := kv
    rw [applyRecord, ih _ (WF_setCell _ _ _ _ hwf) (setCell_cols_mono _ _ _ _ _ hk),
      getCell_setCell_ne_row df i i2 k0 k _ hwf hii hk]

theorem applyRecords_rows_length (ps : List JVal) (df : DataFrame) (i : Nat) :
    (applyRecords df i ps).1.rows.length = df.rows.length := by
  induction ps generalizing df i with
  | nil => rfl
  | cons p tl ih =>
    rw [applyRecords]
    match asObj p with
    | some kvs => rw [ih, applyRecord_rows_length]
    | none => exact ih _ _

theorem WF_applyRecords (ps : List JVal) (df : DataFrame) (i : Nat) (hwf : WF df) :
    WF (applyRecords df i ps).1 := by
  induction ps generalizing df i with
  | nil => exact hwf
  | cons p tl ih =>
    rw [applyRecords]
    match asObj p with
    | some kvs => exact ih _ _ (WF_applyRecord _ _ _ hwf)
    | none => exact ih _ _ hwf

theorem applyRecords_cols_mono (ps : List JVal) (df : DataFrame) (i : Nat)
    (x : String) (hx : x ∈ df.cols) : x ∈ (applyRecords df i ps).1.cols := by
  induction ps generalizing df i with
  | nil => exact hx
  | cons p tl ih =>
    rw [applyRecords]
    match asObj p with
    | some kvs => exact ih _ _ (applyRecord_cols_mono _ _ _ _ hx)
    | none => exact ih _ _ hx

theorem getCell_applyRecords_lt (ps : List JVal) (df : DataFrame) (i0 i : Nat)
    (k : String) (hwf : WF df) (hi : i < i0) (hk : k ∈ df.cols) :
    getCell (applyRecords df i0 ps).1 i k = getCell df i k := by
  induction ps generalizing df i0 with
  | nil => rfl
  | cons p tl ih =>
    rw [applyRecords]
    match asObj p with
    | some kvs =>
      rw [ih _ _ (WF_applyRecord _ _ _ hwf) (by omega)
          (applyRecord_cols_mono _ _ _ _ hk),
        getCell_applyRecord_ne_row _ _ _ _ _ hwf (by omega) hk]
    | none => exact ih _ _ hwf (by omega) hk

theorem getCell_applyRecords_at (ps : List JVal) (df : DataFrame) (i0 j : Nat)
    (kvs : List (String × JVal)) (k : String) (v : JVal) (hwf : WF df)
    (hlen : i0 + ps.length ≤ df.rows.length) (hj : ps[j]? = some (.obj kvs))
    (hnd : (kvs.map Prod.fst).Nodup) (hkv : (k, v) ∈ kvs) :
    getCell (applyRecords df i0 ps).1 (i0 + j) k = some (predValueCell v) := by
  induction ps generalizing df i0 j with
  | nil => simp at hj
  | cons p tl ih =>
    rw [applyRecords]
    match j with
    | 0 =>
      rw [List.getElem?_cons_zero] at hj
      cases Option.some.inj hj
      show getCell (applyRecords (applyRecord df i0 kvs) (i0 + 1) tl).1 (i0 + 0) k =
        some (predValueCell v)
      simp only [Nat.add_zero]
      rw [getCell_applyRecords_lt tl _ (i0 + 1) i0 k (WF_applyRecord _ _ _ hwf)
        (by omega) (applyRecord_key_mem kvs df i0 k v hkv)]
      exact getCell_applyRecord_same kvs df i0 k v hwf
        (by simp only [List.length_cons] at hlen; omega) hnd hkv
    | t + 1 =>
      rw [List.getElem?_cons_succ] at hj
      simp only [List.length_cons] at hlen
      match asObj p with
      | some kvs0 =>
        have := ih (applyRecord df i0 kvs0) (i0 + 1) t (WF_applyRecord _ _ _ hwf)
          (by rw [applyRecord_rows_length]; omega) hj
        rw [show i0 + (t + 1) = i0 + 1 + t from by omega]
        exact this
      | none =>
        have := ih df (i0 + 1) t hwf (by omega) hj
        rw [show i0 + (t + 1) = i0 + 1 + t from by omega]
        exact this

theorem getCell_applyRecords_skip (ps : List JVal) (df : DataFrame) (i0 j : Nat)
    (p : JVal) (k : String) (hwf : WF df) (hj : ps[j]? = some p)
    (hobj : asObj p = none) (hk : k ∈ df.cols) :
    getCell (applyRecords df i0 ps).1 (i0 + j) k = getCell df (i0 + j) k := by
  induction ps generalizing df i0 j with
  | nil => simp at hj
  | cons q tl ih =>
    rw [applyRecords]
    match j with
    | 0 =>
      rw [List.getElem?_cons_zero] at hj
      cases Option.some.inj hj
      rw [hobj]
      simp only [Nat.add_zero]
      exact getCell_applyRecords_lt tl df (i0 + 1) i0 k hwf (by omega) hk
    | t + 1 =>
      rw [List.getElem?_cons_succ] at hj
      match asObj q with
      | some kvs0 =>
        have := ih (applyRecord df i0 kvs0) (i0 + 1) t (WF_applyRecord _ _ _ hwf) hj
          (applyRecord_cols_mono _ _ _ _ hk)
        rw [show i0 + (t + 1) = i0 + 1 + t from by omega]
        rw [this, getCell_applyRecord_ne_row _ _ _ _ _ hwf (by omega) hk]
      | none =>
        have := ih df (i0 + 1) t hwf hj hk
        rw [show i0 + (t + 1) = i0 + 1 + t from by omega]
        exact this

theorem applyRecords_warn (ps : List JVal) (df : DataFrame) (i0 j : Nat) (p : JVal)
    (hj : ps[j]? = some p) (hobj : asObj p = none) :
    LogEntry.predWarning (i0 + j) p ∈ (applyRecords df i0 ps).2 := by
  induction ps generalizing df i0 j with
  | nil => simp at hj
  | cons q tl ih =>
    rw [applyRecords]
    match j with
    | 0 =>
      rw [List.getElem?_cons_zero] at hj
      cases Option.some.inj hj
      rw [hobj]
      simp
    | t + 1 =>
      rw [List.getElem?_cons_succ] at hj
      match asObj q with
      | some kvs0 =>
        have := ih (applyRecord df i0 kvs0) (i0 + 1) t hj
        rw [show i0 + (t + 1) = i0 + 1 + t from by omega]
        exact this
      | none =>
        have := ih df (i0 + 1) t hj
        rw [show i0 + (t + 1) = i0 + 1 + t from by omega]
        simp only [List.mem_cons]
        right
        exact this

/-! ### Claim theorems about `process_predictions` -/
theorem predValueCell_composite (v : JVal) (h : isComposite v = true) :
    predValueCell v = some (.str (dumps v)) := by
  match v with
  | .null | .bool _ | .num _ | .str _ => simp [isComposite] at h
  | .arr xs => rfl
  | .obj kvs => rfl

theorem mem_of_getElemQ {α : Type} (l : List α) (n : Nat) (a : α)
    (h : l[n]? = some a) : a ∈ l := by
  have hn : n < l.length := by
    by_contra hge
    rw [List.getElem?_eq_none (by omega)] at h
    exact Option.noConfusion h
  rw [List.getElem?_eq_getElem hn] at h
  exact (by simpa using h : l[n] = a) ▸ List.getElem_mem hn

/-- C1: if the predictions value is a list with exactly one record per row
and every record is a mapping of scalar values with distinct keys, then the
merge keeps the row count, keeps every original column, and stores in cell
`(j, k)` the value of field `k` of record `j`.  (`predValueCell` is the
line 43 coercion; on scalar values it is the identity embedding of the
scalar into a cell, with JSON `null` stored as a missing value.) -/
theorem merge_scalar_records (df : DataFrame) (ps : List JVal)
    (hwf : WF df) (hlen : ps.length = df.rows.length)
    (hmaps : ∀ p ∈ ps, ∃ kvs, p = .obj kvs ∧ (kvs.map Prod.fst).Nodup ∧
      ∀ kv ∈ kvs, isComposite kv.2 = false) :
    (process_predictions (.arr ps) df).1.rows.length = df.rows.length ∧
    (∀ x ∈ df.cols, x ∈ (process_predictions (.arr ps) df).1.cols) ∧
    ∀ j kvs k v, ps[j]? = some (.obj kvs) → (k, v) ∈ kvs →
      getCell (process_predictions (.arr ps) df).1 j k = some (predValueCell v) := by
  have hpp : process_predictions (.arr ps) df = applyRecords df 0 ps := by
    simp [process_predictions, hlen]
  rw [hpp]
  refine ⟨applyRecords_rows_length ps df 0, fun x hx => applyRecords_cols_mono ps df 0 x hx,
    fun j kvs k v hj hkv => ?_⟩
  obtain ⟨kvs2, heq, hnd, -⟩ := hmaps (.obj kvs) (mem_of_getElemQ ps j _ hj)
  cases (show kvs = kvs2 from by injection heq)
  have := getCell_applyRecords_at ps df 0 j kvs k v hwf (by omega) hj hnd hkv
  simpa using this

/-- C2: if the predictions value is not a Python list, or its length differs
from the dataset's row count, `process_predictions` logs the expected length
and the actual type and returns the dataset itself, unchanged. -/
theorem merge_shape_mismatch (df : DataFrame) (predictions : JVal)
    (h : (∀ xs, predictions ≠ .arr xs) ∨
      (∃ xs, predictions = .arr xs ∧ xs.length ≠ df.rows.length)) :
    process_predictions predictions df =
      (df, [.shapeError df.rows.length (typeName predictions)]) := by
  match predictions with
  | .arr xs =>
    rcases h with h | ⟨xs2, heq, hne⟩
    · exact absurd rfl (h xs)
    · cases (show xs = xs2 from by injection heq)
      simp [process_predictions, hne]
  | .null => rfl
  | .bool b => rfl
  | .num n => rfl
  | .str s => rfl
  | .obj kvs => rfl

/-- C3: in a well-shaped merge, a composite field value (list or mapping) is
stored as its JSON text, and parsing that text yields the original value
back; scalar field values are stored as they are, not JSON-encoded. -/
theorem merge_composite_json (df : DataFrame) (ps : List JVal) (j : Nat)
    (kvs : List (String × JVal)) (k : String) (v : JVal)
    (hwf : WF df) (hlen : ps.length = df.rows.length)
    (hj : ps[j]? = some (.obj kvs)) (hnd : (kvs.map Prod.fst).Nodup)
    (hkv : (k, v) ∈ kvs) (hcomp : isComposite v = true) :
    getCell (process_predictions (.arr ps) df).1 j k =
      some (some (Scalar.str (dumps v))) ∧
    parseJson (dumps v) = some v ∧
    (∀ n : Int, predValueCell (.num n) = some (.int n)) ∧
    (∀ s : String, predValueCell (.str s) = some (.str s)) ∧
    (∀ b : Bool, predValueCell (.bool b) = some (.bool b)) := by
  have hpp : process_predictions (.arr ps) df = applyRecords df 0 ps := by
    simp [process_predictions, hlen]
  refine ⟨?_, parseJson_dumps v, fun n => rfl, fun s => rfl, fun b => rfl⟩
  rw [hpp]
  have := getCell_applyRecords_at ps df 0 j kvs k v hwf (by omega) hj hnd hkv
  rw [predValueCell_composite v hcomp] at this
  simpa using this

/-- C4: in a well-shaped merge, a non-mapping record at offset `j` is logged
with its index and value, every original-column cell of row `j` is left
unchanged, and every mapping record is still applied at its own row. -/
theorem merge_nonmapping_record (df : DataFrame) (ps : List JVal) (j : Nat)
    (p : JVal) (hwf : WF df) (hlen : ps.length = df.rows.length)
    (hj : ps[j]? = some p) (hobj : asObj p = none) :
    LogEntry.predWarning j p ∈ (process_predictions (.arr ps) df).2 ∧
    (∀ k ∈ df.cols, getCell (process_predictions (.arr ps) df).1 j k = getCell df j k) ∧
    (∀ j2 kvs k v, ps[j2]? = some (.obj kvs) → (kvs.map Prod.fst).Nodup →
      (k, v) ∈ kvs →
      getCell (process_predictions (.arr ps) df).1 j2 k = some (predValueCell v)) := by
  have hpp : process_predictions (.arr ps) df = applyRecords df 0 ps := by
    simp [process_predictions, hlen]
  rw [hpp]
  refine ⟨?_, fun k hk => ?_, fun j2 kvs k v hj2 hnd hkv => ?_⟩
  · have := applyRecords_warn ps df 0 j p hj hobj
    simpa using this
  · have := getCell_applyRecords_skip ps df 0 j p k hwf hj hobj hk
    simpa using this
  · have := getCell_applyRecords_at ps df 0 j2 kvs k v hwf (by omega) hj2 hnd hkv
    simpa using this

theorem merge_scalar_records_witness :
    (WF ⟨["a"], [[some (Scalar.int 1)], [some (Scalar.int 2)]]⟩ ∧
      [JVal.obj [("label", JVal.str "x")], JVal.obj [("label", JVal.str "y")]].length =
        (DataFrame.mk ["a"] [[some (Scalar.int 1)], [some (Scalar.int 2)]]).rows.length ∧
      ∀ p ∈ [JVal.obj [("label", JVal.str "x")], JVal.obj [("label", JVal.str "y")]],
        ∃ kvs, p = JVal.obj kvs ∧ (kvs.map Prod.fst).Nodup ∧
          ∀ kv ∈ kvs, isComposite kv.2 = false) ∧
    ((process_predictions
        (.arr [JVal.obj [("label", JVal.str "x")], JVal.obj [("label", JVal.str "y")]])
        ⟨["a"], [[some (Scalar.int 1)], [some (Scalar.int 2)]]⟩).1.rows.length =
      (DataFrame.mk ["a"] [[some (Scalar.int 1)], [some (Scalar.int 2)]]).rows.length ∧
     (∀ x ∈ (DataFrame.mk ["a"] [[some (Scalar.int 1)], [some (Scalar.int 2)]]).cols,
        x ∈ (process_predictions
          (.arr [JVal.obj [("label", JVal.str "x")], JVal.obj [("label", JVal.str "y")]])
          ⟨["a"], [[some (Scalar.int 1)], [some (Scalar.int 2)]]⟩).1.cols) ∧
     ∀ j kvs k v,
       [JVal.obj [("label", JVal.str "x")], JVal.obj [("label", JVal.str "y")]][j]? =
         some (JVal.obj kvs) → (k, v) ∈ kvs →
       getCell (process_predictions
         (.arr [JVal.obj [("label", JVal.str "x")], JVal.obj [("label", JVal.str "y")]])
         ⟨["a"], [[some (Scalar.int 1)], [some (Scalar.int 2)]]⟩).1 j k =
         some (predValueCell v)) := by
  have hmaps : ∀ p ∈ [JVal.obj [("label", JVal.str "x")], JVal.obj [("label", JVal.str "y")]],
      ∃ kvs, p = JVal.obj kvs ∧ (kvs.map Prod.fst).Nodup ∧
        ∀ kv ∈ kvs, isComposite kv.2 = false := by
    intro p hp
    rcases List.mem_cons.1 hp with rfl | hp
    · exact ⟨[("label", JVal.str "x")], rfl, by decide, by decide⟩
    rcases List.mem_cons.1 hp with rfl | hp
    · exact ⟨[("label", JVal.str "y")], rfl, by decide, by decide⟩
    · exact absurd hp (List.not_mem_nil p)
  exact ⟨⟨by decide, by decide, hmaps⟩,
    merge_scalar_records ⟨["a"], [[some (Scalar.int 1)], [some (Scalar.int 2)]]⟩
      [JVal.obj [("label", JVal.str "x")], JVal.obj [("label", JVal.str "y")]]
      (by decide) (by decide) hmaps⟩

theorem merge_shape_mismatch_witness :
    ((∀ xs, JVal.str "oops" ≠ JVal.arr xs) ∨
      (∃ xs, JVal.str "oops" = JVal.arr xs ∧
        xs.length ≠ (DataFrame.mk ["a"] [[some (Scalar.int 1)]]).rows.length)) ∧
    process_predictions (JVal.str "oops") ⟨["a"], [[some (Scalar.int 1)]]⟩ =
      (⟨["a"], [[some (Scalar.int 1)]]⟩,
        [.shapeError (DataFrame.mk ["a"] [[some (Scalar.int 1)]]).rows.length
          (typeName (JVal.str "oops"))]) :=
  ⟨Or.inl (fun xs h => JVal.noConfusion h),
    merge_shape_mismatch ⟨["a"], [[some (Scalar.int 1)]]⟩ (JVal.str "oops")
      (Or.inl (fun xs h => JVal.noConfusion h))⟩

theorem merge_composite_json_witness :
    (WF ⟨["a"], [[some (Scalar.int 1)]]⟩ ∧
      [JVal.obj [("out", JVal.arr [JVal.num 1, JVal.num 2])]].length =
        (DataFrame.mk ["a"] [[some (Scalar.int 1)]]).rows.length ∧
      [JVal.obj [("out", JVal.arr [JVal.num 1, JVal.num 2])]][0]? =
        some (JVal.obj [("out", JVal.arr [JVal.num 1, JVal.num 2])]) ∧
      ([("out", JVal.arr [JVal.num 1, JVal.num 2])].map Prod.fst).Nodup ∧
      ("out", JVal.arr [JVal.num 1, JVal.num 2]) ∈
        [("out", JVal.arr [JVal.num 1, JVal.num 2])] ∧
      isComposite (JVal.arr [JVal.num 1, JVal.num 2]) = true) ∧
    (getCell (process_predictions
        (.arr [JVal.obj [("out", JVal.arr [JVal.num 1, JVal.num 2])]])
        ⟨["a"], [[some (Scalar.int 1)]]⟩).1 0 "out" =
      some (some (Scalar.str (dumps (JVal.arr [JVal.num 1, JVal.num 2])))) ∧
     parseJson (dumps (JVal.arr [JVal.num 1, JVal.num 2])) =
       some (JVal.arr [JVal.num 1, JVal.num 2]) ∧
     (∀ n : Int, predValueCell (.num n) = some (.int n)) ∧
     (∀ s : String, predValueCell (.str s) = some (.str s)) ∧
     (∀ b : Bool, predValueCell (.bool b) = some (.bool b))) :=
  ⟨⟨by decide, rfl, rfl, by decide, List.mem_singleton.2 rfl, rfl⟩,
    merge_composite_json ⟨["a"], [[some (Scalar.int 1)]]⟩
      [JVal.obj [("out", JVal.arr [JVal.num 1, JVal.num 2])]] 0
      [("out", JVal.arr [JVal.num 1, JVal.num 2])] "out"
      (JVal.arr [JVal.num 1, JVal.num 2])
      (by decide) rfl rfl (by decide) (List.mem_singleton.2 rfl) rfl⟩

theorem merge_nonmapping_record_witness :
    (WF ⟨["a"], [[some (Scalar.int 1)], [some (Scalar.int 2)]]⟩ ∧
      [JVal.num 7, JVal.obj [("label", JVal.str "x")]].length =
        (DataFrame.mk ["a"] [[some (Scalar.int 1)], [some (Scalar.int 2)]]).rows.length ∧
      [JVal.num 7, JVal.obj [("label", JVal.str "x")]][0]? = some (JVal.num 7) ∧
      asObj (JVal.num 7) = none) ∧
    (LogEntry.predWarning 0 (JVal.num 7) ∈
      (process_predictions (.arr [JVal.num 7, JVal.obj [("label", JVal.str "x")]])
        ⟨["a"], [[some (Scalar.int 1)], [some (Scalar.int 2)]]⟩).2 ∧
     (∀ k ∈ (DataFrame.mk ["a"] [[some (Scalar.int 1)], [some (Scalar.int 2)]]).cols,
        getCell (process_predictions
          (.arr [JVal.num 7, JVal.obj [("label", JVal.str "x")]])
          ⟨["a"], [[some (Scalar.int 1)], [some (Scalar.int 2)]]⟩).1 0 k =
        getCell ⟨["a"], [[some (Scalar.int 1)], [some (Scalar.int 2)]]⟩ 0 k) ∧
     (∀ j2 kvs k v,
        [JVal.num 7, JVal.obj [("label", JVal.str "x")]][j2]? = some (JVal.obj kvs) →
        (kvs.map Prod.fst).Nodup → (k, v) ∈ kvs →
        getCell (process_predictions
          (.arr [JVal.num 7, JVal.obj [("label", JVal.str "x")]])
          ⟨["a"], [[some (Scalar.int 1)], [some (Scalar.int 2)]]⟩).1 j2 k =
        some (predValueCell v))) :=
  ⟨⟨by decide, by decide, rfl, rfl⟩,
    merge_nonmapping_record ⟨["a"], [[some (Scalar.int 1)], [some (Scalar.int 2)]]⟩
      [JVal.num 7, JVal.obj [("label", JVal.str "x")]] 0 (JVal.num 7)
      (by decide) (by decide) rfl rfl⟩

/-! ### Pipeline lemmas -/
theorem runFiles_processed (env : Env) (files : List String) :
    (runFiles env files).processed = files := by
  induction files with
  | nil => rfl
  | cons f tl ih => simp only [runFiles, ih]

theorem process_csv_file_body_written (env : Env) (file_key out body : String)
    (h : (process_csv_file_body env file_key).1.written = some (out, body)) :
    out = outputKeyOf file_key := by
  unfold process_csv_file_body at h
  split at h
  · simp_all
  · split at h
    · simp_all
    · rename_i df hdf
      dsimp only at h
      split at h
      · simp_all
      · rename_i resp heq
        cases resp with
        | null => simp_all
        | bool b => simp_all
        | num n => simp_all
        | str s => simp_all
        | arr xs => simp_all
        | obj kvs =>
          split at h
          · split at h
            · simp_all
            · split at h <;> simp_all
          · simp_all

theorem process_csv_file_written (env : Env) (file_key out body : String)
    (h : (process_csv_file env file_key).written = some (out, body)) :
    out = outputKeyOf file_key := by
  unfold process_csv_file at h
  split at h
  · exact process_csv_file_body_written env file_key out body (by
      rename_i t e heq
      rw [heq]
      simpa using h)
  · exact process_csv_file_body_written env file_key out body (by
      rename_i t heq
      rw [heq]
      simpa using h)

theorem applyWrites_pair (store : String → Option String) (k v1 v2 : String) :
    applyWrites store [(k, v1), (k, v2)] k = some v2 := by
  simp [applyWrites]

theorem process_csv_file_invoked (env : Env) (file_key : String) :
    (process_csv_file env file_key).invoked =
      (process_csv_file_body env file_key).1.invoked := by
  unfold process_csv_file
  split <;> simp_all

theorem process_csv_file_written_eq (env : Env) (file_key : String) :
    (process_csv_file env file_key).written =
      (process_csv_file_body env file_key).1.written := by
  unfold process_csv_file
  split <;> simp_all

theorem process_csv_file_mem_logs (env : Env) (file_key : String) (l : LogEntry)
    (hl : l ∈ (process_csv_file_body env file_key).1.logs) :
    l ∈ (process_csv_file env file_key).logs := by
  unfold process_csv_file
  split <;> rename_i t heq <;> rw [heq] at hl <;> simp [List.mem_append, hl]

theorem process_csv_file_body_no_predictions (env : Env)
    (file_key content body : String) (df : DataFrame) (kvs : List (String × JVal))
    (hget : env.getObject file_key = .ok content)
    (hread : readCsv content = some df)
    (hinv : env.invokeEndpoint (toCsv false df) = .ok body)
    (hjson : parseJson body = some (.obj kvs))
    (hnok : lookupLast kvs "predictions" = none) :
    process_csv_file_body env file_key =
      (⟨[LogEntry.infoShape df.rows.length df.cols.length, LogEntry.infoHead,
          LogEntry.infoKeys (kvs.map Prod.fst), LogEntry.noPredictionsError],
        some (toCsv false df), none⟩, none) := by
  have hie : invoke_sagemaker_endpoint env (toCsv false df) = (.ok (.obj kvs), []) := by
    rw [invoke_sagemaker_endpoint, hinv]
    simp [hjson]
  unfold process_csv_file_body
  rw [hget]
  simp only [hread, hie, hnok]
  simp

theorem process_csv_file_body_invoked (env : Env) (file_key content : String)
    (df : DataFrame)
    (hget : env.getObject file_key = .ok content)
    (hread : readCsv content = some df) :
    (process_csv_file_body env file_key).1.invoked = some (toCsv false df) := by
  unfold process_csv_file_body
  rw [hget]
  simp only [hread]
  split
  · rfl
  · rename_i resp heq
    cases resp with
    | null => rfl
    | bool b => rfl
    | num n => rfl
    | str s => rfl
    | arr xs => rfl
    | obj kvs =>
      repeat' split
      all_goals rfl

/-- C5: a failure raised while processing one file (storage read, parse,
invocation, or write) is caught inside `process_csv_file` and logged as the
line-84 error, and the driver still processes every `.csv` key of the
listing, in listing order: no single file's failure aborts the rest. -/
theorem file_failure_isolated (env : Env) (keys : List String)
    (hlist : env.listObjects = .ok keys)
    (hne : keys.filter (fun k => pyEndsWith k ".csv") ≠ []) :
    (process_all_csv_files env).processed =
      keys.filter (fun k => pyEndsWith k ".csv") ∧
    ∀ file_key e, (process_csv_file_body env file_key).2 = some e →
      LogEntry.fileError file_key e ∈ (process_csv_file env file_key).logs := by
  constructor
  · rw [process_all_csv_files, hlist]
    dsimp only
    rw [if_neg (by simpa [List.isEmpty_iff] using hne)]
    exact runFiles_processed env _
  · intro fk e he
    unfold process_csv_file
    split
    · rename_i t e2 heq
      rw [heq] at he
      simp only at he
      cases he
      simp
    · rename_i t heq
      rw [heq] at he
      simp at he

theorem file_failure_isolated_witness :
    ((⟨.ok ["100csv/a.csv", "100csv/notes.txt"], fun _ => .error "boom",
        fun _ => .error "x", fun _ _ => .error "x"⟩ : Env).listObjects =
      .ok ["100csv/a.csv", "100csv/notes.txt"] ∧
     ["100csv/a.csv", "100csv/notes.txt"].filter
       (fun k => pyEndsWith k ".csv") ≠ []) ∧
    ((process_all_csv_files ⟨.ok ["100csv/a.csv", "100csv/notes.txt"],
        fun _ => .error "boom", fun _ => .error "x",
        fun _ _ => .error "x"⟩).processed =
      ["100csv/a.csv", "100csv/notes.txt"].filter (fun k => pyEndsWith k ".csv") ∧
     ∀ file_key e,
       (process_csv_file_body ⟨.ok ["100csv/a.csv", "100csv/notes.txt"],
          fun _ => .error "boom", fun _ => .error "x",
          fun _ _ => .error "x"⟩ file_key).2 = some e →
       LogEntry.fileError file_key e ∈
         (process_csv_file ⟨.ok ["100csv/a.csv", "100csv/notes.txt"],
            fun _ => .error "boom", fun _ => .error "x",
            fun _ _ => .error "x"⟩ file_key).logs) :=
  ⟨⟨rfl, by decide⟩,
    file_failure_isolated ⟨.ok ["100csv/a.csv", "100csv/notes.txt"],
        fun _ => .error "boom", fun _ => .error "x", fun _ _ => .error "x"⟩
      ["100csv/a.csv", "100csv/notes.txt"] rfl (by decide)⟩

/-- C6: when the endpoint's JSON envelope is a dict without a
`'predictions'` key, the file processor logs the line-73 error and returns
before the write (no output object for that input), raising nothing, and
the driver goes on with the remaining files. -/
theorem no_predictions_no_write (env : Env) (file_key content body : String)
    (df : DataFrame) (kvs : List (String × JVal))
    (hget : env.getObject file_key = .ok content)
    (hread : readCsv content = some df)
    (hinv : env.invokeEndpoint (toCsv false df) = .ok body)
    (hjson : parseJson body = some (.obj kvs))
    (hnok : lookupLast kvs "predictions" = none) :
    (process_csv_file env file_key).written = none ∧
    LogEntry.noPredictionsError ∈ (process_csv_file env file_key).logs ∧
    (process_csv_file_body env file_key).2 = none ∧
    ∀ files, (runFiles env (file_key :: files)).processed =
      file_key :: (runFiles env files).processed := by
  have hb := process_csv_file_body_no_predictions env file_key content body df
    kvs hget hread hinv hjson hnok
  refine ⟨?_, ?_, ?_, ?_⟩
  · rw [process_csv_file_written_eq, hb]
  · exact process_csv_file_mem_logs env file_key _ (by rw [hb]; simp)
  · rw [hb]
  · intro files
    simp only [runFiles]

theorem no_predictions_no_write_witness :
    ((⟨.ok [], fun _ => .ok "a\n1\n", fun _ => .ok "\x7b\x7d",
        fun _ _ => .ok ()⟩ : Env).getObject "k.csv" = .ok "a\n1\n" ∧
     readCsv "a\n1\n" = some ⟨["a"], [[some (Scalar.int 1)]]⟩ ∧
     (⟨.ok [], fun _ => .ok "a\n1\n", fun _ => .ok "\x7b\x7d",
        fun _ _ => .ok ()⟩ : Env).invokeEndpoint
       (toCsv false ⟨["a"], [[some (Scalar.int 1)]]⟩) = .ok "\x7b\x7d" ∧
     parseJson "\x7b\x7d" = some (.obj []) ∧
     lookupLast [] "predictions" = none) ∧
    ((process_csv_file ⟨.ok [], fun _ => .ok "a\n1\n", fun _ => .ok "\x7b\x7d",
        fun _ _ => .ok ()⟩ "k.csv").written = none ∧
     LogEntry.noPredictionsError ∈
       (process_csv_file ⟨.ok [], fun _ => .ok "a\n1\n",
          fun _ => .ok "\x7b\x7d", fun _ _ => .ok ()⟩ "k.csv").logs ∧
     (process_csv_file_body ⟨.ok [], fun _ => .ok "a\n1\n",
        fun _ => .ok "\x7b\x7d", fun _ _ => .ok ()⟩ "k.csv").2 = none ∧
     ∀ files, (runFiles ⟨.ok [], fun _ => .ok "a\n1\n",
         fun _ => .ok "\x7b\x7d", fun _ _ => .ok ()⟩ ("k.csv" :: files)).processed =
       "k.csv" :: (runFiles ⟨.ok [], fun _ => .ok "a\n1\n",
         fun _ => .ok "\x7b\x7d", fun _ _ => .ok ()⟩ files).processed) :=
  ⟨⟨rfl, by decide, rfl, rfl, rfl⟩,
    no_predictions_no_write ⟨.ok [], fun _ => .ok "a\n1\n",
        fun _ => .ok "\x7b\x7d", fun _ _ => .ok ()⟩
      "k.csv" "a\n1\n" "\x7b\x7d" ⟨["a"], [[some (Scalar.int 1)]]⟩ []
      rfl (by decide) rfl rfl rfl⟩

/-- C7: once a file's text parses, the payload the processor sends to the
endpoint is exactly the headerless, index-free CSV rendering of the parsed
dataset — `renderRows` over the dataset's rows in their original order,
with no header line prepended. -/
theorem payload_headerless (env : Env) (file_key content : String)
    (df : DataFrame)
    (hget : env.getObject file_key = .ok content)
    (hread : readCsv content = some df) :
    (process_csv_file env file_key).invoked = some (toCsv false df) ∧
    toCsv false df =
      String.mk (renderRows (df.rows.map (fun r => r.map renderCell))) := by
  refine ⟨?_, rfl⟩
  rw [process_csv_file_invoked]
  exact process_csv_file_body_invoked env file_key content df hget hread

theorem payload_headerless_witness :
    ((⟨.ok [], fun _ => .ok "a\n1\n", fun _ => .error "x",
        fun _ _ => .ok ()⟩ : Env).getObject "k.csv" = .ok "a\n1\n" ∧
     readCsv "a\n1\n" = some ⟨["a"], [[some (Scalar.int 1)]]⟩) ∧
    ((process_csv_file ⟨.ok [], fun _ => .ok "a\n1\n", fun _ => .error "x",
        fun _ _ => .ok ()⟩ "k.csv").invoked =
      some (toCsv false ⟨["a"], [[some (Scalar.int 1)]]⟩) ∧
     toCsv false ⟨["a"], [[some (Scalar.int 1)]]⟩ =
       String.mk (renderRows ([[some (Scalar.int 1)]].map
         (fun r => r.map renderCell)))) :=
  ⟨⟨rfl, by decide⟩,
    payload_headerless ⟨.ok [], fun _ => .ok "a\n1\n", fun _ => .error "x",
        fun _ _ => .ok ()⟩ "k.csv" "a\n1\n" ⟨["a"], [[some (Scalar.int 1)]]⟩
      rfl (by decide)⟩

/-- C9 (corrected): a listing failure is caught by the line-97 handler,
logged, and ends the run with no file processed — but the process still
exits normally; indeed `script_main` returns `.ok` for every environment,
including one where every individual file fails.  The claim's assertion
that the process does not exit normally in the listing-failure case is
refuted by `listing_failure_counterexample`. -/
theorem listing_failure_caught (env : Env) (e : String)
    (hlist : env.listObjects = .error e) :
    process_all_csv_files env = ⟨[.listError e], [], []⟩ ∧
    script_main env = .ok ⟨[.listError e], [], []⟩ ∧
    ∀ env2 : Env, ∃ r, script_main env2 = .ok r := by
  have h1 : process_all_csv_files env = ⟨[.listError e], [], []⟩ := by
    rw [process_all_csv_files, hlist]
  exact ⟨h1, by rw [script_main, h1], fun env2 => ⟨_, rfl⟩⟩

theorem listing_failure_caught_witness :
    ((⟨.error "boom", fun _ => .error "x", fun _ => .error "x",
        fun _ _ => .error "x"⟩ : Env).listObjects = .error "boom") ∧
    (process_all_csv_files ⟨.error "boom", fun _ => .error "x",
        fun _ => .error "x", fun _ _ => .error "x"⟩ =
      ⟨[.listError "boom"], [], []⟩ ∧
     script_main ⟨.error "boom", fun _ => .error "x", fun _ => .error "x",
        fun _ _ => .error "x"⟩ = .ok ⟨[.listError "boom"], [], []⟩ ∧
     ∀ env2 : Env, ∃ r, script_main env2 = .ok r) :=
  ⟨rfl, listing_failure_caught ⟨.error "boom", fun _ => .error "x",
      fun _ => .error "x", fun _ _ => .error "x"⟩ "boom" rfl⟩

/-- Counterexample to C9 as stated: a run whose input listing fails still
exits normally — `script_main` returns `.ok` after logging the listing
error — contradicting the claim that the process does not exit normally in
exactly that case. -/
theorem listing_failure_counterexample :
    (⟨.error "down", fun _ => .error "x", fun _ => .error "x",
        fun _ _ => .error "x"⟩ : Env).listObjects = .error "down" ∧
    script_main ⟨.error "down", fun _ => .error "x", fun _ => .error "x",
        fun _ _ => .error "x"⟩ = .ok ⟨[.listError "down"], [], []⟩ :=
  ⟨rfl, rfl⟩

/-- C10: the output key is `output_prefix` plus the input key's base name
(the segment after the last `/`), so two distinct input keys with equal
base names get the same output key; any write the processor performs uses
that key, and a later write to it overwrites an earlier one. -/
theorem output_key_basename (k1 k2 : String) (hd : k1 ≠ k2)
    (h : lastSegment k1 = lastSegment k2) :
    outputKeyOf k1 = outputKeyOf k2 ∧
    (∀ env file_key out body,
      (process_csv_file env file_key).written = some (out, body) →
      out = outputKeyOf file_key) ∧
    ∀ (store : String → Option String) (v1 v2 : String),
      applyWrites store [(outputKeyOf k1, v1), (outputKeyOf k2, v2)]
        (outputKeyOf k2) = some v2 := by
  have _ := hd
  have hkey : outputKeyOf k1 = outputKeyOf k2 := by
    rw [outputKeyOf, outputKeyOf, h]
  refine ⟨hkey, fun env fk out body hw =>
    process_csv_file_written env fk out body hw, ?_⟩
  intro store v1 v2
  rw [hkey]
  exact applyWrites_pair store (outputKeyOf k2) v1 v2

theorem output_key_basename_witness :
    (("100csv/data.csv" : String) ≠ "archive/data.csv" ∧
     lastSegment "100csv/data.csv" = lastSegment "archive/data.csv") ∧
    (outputKeyOf "100csv/data.csv" = outputKeyOf "archive/data.csv" ∧
     (∀ env file_key out body,
       (process_csv_file env file_key).written = some (out, body) →
       out = outputKeyOf file_key) ∧
     ∀ (store : String → Option String) (v1 v2 : String),
       applyWrites store [(outputKeyOf "100csv/data.csv", v1),
         (outputKeyOf "archive/data.csv", v2)]
         (outputKeyOf "archive/data.csv") = some v2) :=
  ⟨⟨by decide, rfl⟩,
    output_key_basename "100csv/data.csv" "archive/data.csv" (by decide) rfl⟩

end AwsAutoML
